import Mathlib

/-!
# Steelhead platform counter: 32-to-64 bit counter extension and VCXO PWM control

A shallow embedding of `arch/arm/mach-omap2/board-steelhead-platform-counter.c`.

Machine integers are natural numbers (unsigned types) or integers (signed
types); every place where the C code wraps is written with an explicit
`% 2 ^ w`.  Global variables of the C file become fields of explicit state
records that are passed in and returned.
-/

namespace Steelhead

/-! ## Machine integers -/

/-- The signed 64-bit reading of a 64-bit pattern (`s64`). -/
def s64_of_bits (n : Nat) : Int :=
  if n % 2 ^ 64 < 2 ^ 63 then ((n % 2 ^ 64 : Nat) : Int)
  else ((n % 2 ^ 64 : Nat) : Int) - 2 ^ 64

/-- The signed 16-bit reading of the low 16 bits of a pattern (the cast `(s16)`). -/
def s16_of_bits (n : Nat) : Int :=
  if n % 2 ^ 16 < 2 ^ 15 then ((n % 2 ^ 16 : Nat) : Int)
  else ((n % 2 ^ 16 : Nat) : Int) - 2 ^ 16

/-- The 64-bit pattern of a signed value (the cast `(u64)`). -/
def u64_of_int (i : Int) : Nat := (i % 2 ^ 64).toNat

/-- The 32-bit pattern of a signed value (the cast `(u32)`). -/
def u32_of_int (i : Int) : Nat := (i % 2 ^ 32).toNat

/-- Bitwise complement of a 32-bit value (`~x` on a `u32`). -/
def not32 (x : Nat) : Nat := 0xFFFFFFFF ^^^ (x % 2 ^ 32)

/-! ## Counter extension -/

/-- `struct counter_state`, without its lock. -/
structure counter_state where
  upper : Nat
  lower_last : Nat
deriving DecidableEq

/-- The static initialiser of `counter_state`. -/
def counter_state_init : counter_state := ⟨0, 0⟩

/-- The test of `get_counter_internal_l`:
`((lower ^ 0x80000000) & state->lower_last) & 0x80000000`, non-zero. -/
def rollover_detected (state : counter_state) (lower : Nat) : Bool :=
  (((lower ^^^ 0x80000000) &&& state.lower_last) &&& 0x80000000) != 0

/-- `get_counter_internal_l`: the returned `s64` and the state it leaves. -/
def get_counter_internal_l (state : counter_state) (lower : Nat) : Int × counter_state :=
  let upper := if rollover_detected state lower then (state.upper + 1) % 2 ^ 32 else state.upper
  let state1 : counter_state := ⟨upper, lower⟩
  (s64_of_bits ((state1.upper <<< 32) ||| lower), state1)

/-- Successive calls of `get_counter_internal_l` on a list of samples: for each
call, the value returned and the state after the call. -/
def feed_samples : counter_state → List Nat → List (Int × counter_state)
  | _, [] => []
  | state, lower :: rest =>
    let r := get_counter_internal_l state lower
    r :: feed_samples r.2 rest

/-- The 64-bit value held by a state, `(upper << 32) | lower_last`. -/
def state_value (state : counter_state) : Nat :=
  (state.upper <<< 32) ||| state.lower_last

/-! ## Timer handles and the raw counter -/

/-- Modelled from the spec: `struct omap_dm_timer` is declared in
`plat/dmtimer.h`, outside this file.  A timer is the memory-mapped block the
register shim reads and writes; the block is kept as the four 32-bit registers
that the PWM code touches, each holding the value last written to it. -/
structure omap_dm_timer where
  ctrl : Nat
  load : Nat
  match_reg : Nat
  counter : Nat
deriving DecidableEq

/-- What a `struct omap_dm_timer *` can hold after a request: `NULL`, an
`ERR_PTR` value, or a pointer to a timer. -/
inductive timer_ptr where
  | null : timer_ptr
  | err (errno : Nat) : timer_ptr
  | valid (t : omap_dm_timer) : timer_ptr
deriving DecidableEq

/-- The kernel's `IS_ERR_OR_NULL`. -/
def IS_ERR_OR_NULL : timer_ptr → Bool
  | timer_ptr.valid _ => false
  | _ => true

/-- `get_counter_lower`; `hw_counter` is what `omap_dm_timer_read_counter`
would return at the moment of the call. -/
def get_counter_lower (counter_timer : timer_ptr) (hw_counter : Nat) : Nat :=
  if IS_ERR_OR_NULL counter_timer then 0 else hw_counter % 2 ^ 32

/-- `steelhead_get_raw_counter`, on the primary `counter_state`. -/
def steelhead_get_raw_counter (counter_timer : timer_ptr) (hw_counter : Nat)
    (state : counter_state) : Int × counter_state :=
  get_counter_internal_l state (get_counter_lower counter_timer hw_counter)

/-- Successive calls of `steelhead_get_raw_counter`, one per hardware reading. -/
def raw_counter_calls (counter_timer : timer_ptr) :
    counter_state → List Nat → List (Int × counter_state)
  | _, [] => []
  | state, hw :: rest =>
    let r := steelhead_get_raw_counter counter_timer hw state
    r :: raw_counter_calls counter_timer r.2 rest

/-! ## VCXO PWM control -/

def VCXO_CYCLE_TICKS : Nat := 1024
def VCXO_TIMER_START : Nat := 0xFFFFFFFF - VCXO_CYCLE_TICKS

def TIMER_CTRL_OFFSET : Nat := 0x24
def TIMER_CTRL_GPOCFG : Nat := 1 <<< 14
def TIMER_CTRL_PT : Nat := 1 <<< 12
def TIMER_CTRL_TRIG_OVFL_MATCH : Nat := 0x2 <<< 10
def TIMER_CTRL_TRIG_MASK : Nat := 0x3 <<< 10
def TIMER_CTRL_SCPWM : Nat := 1 <<< 7
def TIMER_CTRL_CE : Nat := 1 <<< 6
def TIMER_CTRL_AR : Nat := 1 <<< 1
def TIMER_CTRL_ST : Nat := 1 <<< 0
def TIMER_COUNTER_OFFSET : Nat := 0x28
def TIMER_LOAD_OFFSET : Nat := 0x2c
def TIMER_MATCH_OFFSET : Nat := 0x38

/-- One access to a timer register, by register offset. -/
inductive reg_access where
  | read (reg : Nat) : reg_access
  | write (reg : Nat) (val : Nat) : reg_access
deriving DecidableEq

/-- `timer_read_reg`: the value held by the register at offset `reg`.  The
wait for pending posted writes that comes first polls the write-pending
register only and changes none of the four registers; all four offsets lie in
the functional bank, so each names one register. -/
def timer_read_reg (t : omap_dm_timer) (reg : Nat) : Nat :=
  if reg = TIMER_CTRL_OFFSET then t.ctrl
  else if reg = TIMER_COUNTER_OFFSET then t.counter
  else if reg = TIMER_LOAD_OFFSET then t.load
  else if reg = TIMER_MATCH_OFFSET then t.match_reg
  else 0

/-- `timer_write_reg`: the register at offset `reg` takes the value `val`
(after the same wait as in `timer_read_reg`). -/
def timer_write_reg (t : omap_dm_timer) (reg : Nat) (val : Nat) : omap_dm_timer :=
  if reg = TIMER_CTRL_OFFSET then { t with ctrl := val }
  else if reg = TIMER_COUNTER_OFFSET then { t with counter := val }
  else if reg = TIMER_LOAD_OFFSET then { t with load := val }
  else if reg = TIMER_MATCH_OFFSET then { t with match_reg := val }
  else t

/-- The globals of the VCXO controller: `vcxo_pwm_timer` (`none` is `NULL`)
and `vcxo_last_rate`. -/
structure vcxo_state where
  vcxo_pwm_timer : Option omap_dm_timer
  vcxo_last_rate : Int
deriving DecidableEq

/-- The first three statements of `steelhead_set_vcxo_rate`:
`match_pos = (u32)(rate + 0x8000); match_pos *= VCXO_CYCLE_TICKS; match_pos >>= 16`. -/
def match_pos (rate : Int) : Nat :=
  ((u32_of_int (rate + 0x8000) * VCXO_CYCLE_TICKS) % 2 ^ 32) >>> 16

/-- `steelhead_set_vcxo_rate`: the state it leaves and the register accesses
it makes, in order. -/
def steelhead_set_vcxo_rate (rate : Int) (s : vcxo_state) : vcxo_state × List reg_access :=
  match s.vcxo_pwm_timer with
  | none => (s, [])
  | some t =>
    let mp := match_pos rate
    let ctrl := timer_read_reg t TIMER_CTRL_OFFSET
    let ctrl := ctrl &&& not32 TIMER_CTRL_ST
    let t := timer_write_reg t TIMER_CTRL_OFFSET ctrl
    let trace := [reg_access.read TIMER_CTRL_OFFSET, reg_access.write TIMER_CTRL_OFFSET ctrl]
    if mp = 0 then
      let ctrl := ctrl &&& not32 (TIMER_CTRL_GPOCFG ||| TIMER_CTRL_SCPWM)
      let t := timer_write_reg t TIMER_CTRL_OFFSET ctrl
      (⟨some t, rate⟩, trace ++ [reg_access.write TIMER_CTRL_OFFSET ctrl])
    else
      let mp := (mp + VCXO_TIMER_START) % 2 ^ 32
      if mp ≥ 0xFFFFFFFE then
        let ctrl := ctrl &&& not32 TIMER_CTRL_GPOCFG
        let ctrl := ctrl ||| TIMER_CTRL_SCPWM
        let t := timer_write_reg t TIMER_CTRL_OFFSET ctrl
        (⟨some t, rate⟩, trace ++ [reg_access.write TIMER_CTRL_OFFSET ctrl])
      else
        let t := timer_write_reg t TIMER_LOAD_OFFSET VCXO_TIMER_START
        let t := timer_write_reg t TIMER_MATCH_OFFSET mp
        let t := timer_write_reg t TIMER_COUNTER_OFFSET 0xFFFFFFFD
        let ctrl := ctrl &&& not32 (TIMER_CTRL_GPOCFG ||| TIMER_CTRL_SCPWM
          ||| TIMER_CTRL_TRIG_MASK)
        let ctrl := ctrl ||| (TIMER_CTRL_CE ||| TIMER_CTRL_AR ||| TIMER_CTRL_ST
          ||| TIMER_CTRL_PT ||| TIMER_CTRL_TRIG_OVFL_MATCH)
        let t := timer_write_reg t TIMER_CTRL_OFFSET ctrl
        (⟨some t, rate⟩, trace ++
          [reg_access.write TIMER_LOAD_OFFSET VCXO_TIMER_START,
           reg_access.write TIMER_MATCH_OFFSET mp,
           reg_access.write TIMER_COUNTER_OFFSET 0xFFFFFFFD,
           reg_access.write TIMER_CTRL_OFFSET ctrl])

/-- `steelhead_setup_vcxo_control`; `requested` is what
`omap_dm_timer_request_specific` returned.  Gives the state left, the register
accesses made, and the return value. -/
def steelhead_setup_vcxo_control (requested : timer_ptr) (s : vcxo_state) :
    vcxo_state × List reg_access × Int :=
  match requested with
  | timer_ptr.valid t =>
    let r := steelhead_set_vcxo_rate 0 ⟨some t, s.vcxo_last_rate⟩
    (r.1, r.2, 0)
  | _ => (⟨none, s.vcxo_last_rate⟩, [], -1)

/-- `vcxo_debugfs_get_vcxo_value`: the value stored through `out`, and the
return value. -/
def vcxo_debugfs_get_vcxo_value (s : vcxo_state) : Nat × Int :=
  (u64_of_int s.vcxo_last_rate, 0)

/-- `vcxo_debugfs_set_vcxo_value`: the state left, the register accesses made,
and the return value. -/
def vcxo_debugfs_set_vcxo_value (value : Nat) (s : vcxo_state) :
    vcxo_state × List reg_access × Int :=
  let rate := s16_of_bits value
  let r := steelhead_set_vcxo_rate rate s
  (r.1, r.2, 0)

/-! ## The write-pending wait of the register shim -/

/-- The polling loop of `timer_wait_no_write_pending`,
`for (i = 0; (i < 100000) && (readl(tgt) & 0xff); ++i)`, entered with loop
counter `i`, `budget = 100000 - i` iterations left and `polls` reads of the
write-pending register made so far; `wp k` is the value the register returns
on the poll made with loop counter `k`.  Gives the final loop counter and the
number of polls made. -/
def wp_poll_loop (wp : Nat → Nat) : Nat → Nat → Nat → Nat × Nat
  | 0, i, polls => (i, polls)
  | budget + 1, i, polls =>
    if (wp i % 2 ^ 32) &&& 0xff ≠ 0 then wp_poll_loop wp budget (i + 1) (polls + 1)
    else (i, polls + 1)

/-- What one call of `timer_wait_no_write_pending` did: the number of reads of
the write-pending register, and whether `"wp timeout."` was reported. -/
structure wp_wait where
  polls : Nat
  timeout : Bool
deriving DecidableEq

/-- `timer_wait_no_write_pending`; `posted` is `t->posted`. -/
def timer_wait_no_write_pending (posted : Bool) (wp : Nat → Nat) : wp_wait :=
  if posted then
    let r := wp_poll_loop wp 100000 0 0
    ⟨r.2, r.1 == 100000⟩
  else ⟨0, false⟩

/-- `timer_read_reg` with its wait made explicit: what the wait did, the
register accesses made after it, and the value read. -/
def timer_read_reg_posted (posted : Bool) (wp : Nat → Nat) (t : omap_dm_timer) (reg : Nat) :
    wp_wait × List reg_access × Nat :=
  let w := timer_wait_no_write_pending posted wp
  (w, [reg_access.read reg], timer_read_reg t reg)

/-- `timer_write_reg` with its wait made explicit: what the wait did, the
register accesses made after it, and the registers afterwards. -/
def timer_write_reg_posted (posted : Bool) (wp : Nat → Nat) (t : omap_dm_timer) (reg : Nat)
    (val : Nat) : wp_wait × List reg_access × omap_dm_timer :=
  let w := timer_wait_no_write_pending posted wp
  (w, [reg_access.write reg val], timer_write_reg t reg val)

/-! ## Order of register writes -/

/-- Holds when no write to a register other than CTRL happens in the trace
while the timer runs; `running` tells whether the ST bit is set in CTRL before
the trace, and every write to CTRL in the trace replaces it by the ST bit of
the value written. -/
def writes_only_while_stopped : Bool → List reg_access → Prop
  | _, [] => True
  | running, reg_access.read _ :: rest => writes_only_while_stopped running rest
  | running, reg_access.write reg val :: rest =>
    if reg = TIMER_CTRL_OFFSET then writes_only_while_stopped (val.testBit 0) rest
    else running = false ∧ writes_only_while_stopped running rest

/-- The writes of a trace, in order. -/
def trace_writes : List reg_access → List (Nat × Nat)
  | [] => []
  | reg_access.read _ :: rest => trace_writes rest
  | reg_access.write reg val :: rest => (reg, val) :: trace_writes rest

/-! ## The two counter instances and their locks -/

/-- The spinlocks of the file. -/
inductive lock_id where
  | counter_state_lock : lock_id
  | tsdebug_counter_state_lock : lock_id
  | timesync_event_handler_lock : lock_id
  | vcxo_lock : lock_id
  | vcxo_factory_test_spinlock : lock_id
deriving DecidableEq

/-- The two global instances of `struct counter_state`. -/
structure counter_globals where
  counter_state : Steelhead.counter_state
  tsdebug_counter_state : Steelhead.counter_state
deriving DecidableEq

/-- `timer_capture_irq`, up to the call of the registered handler: the event
time, the globals afterwards, and the lock taken around the update.
`capture1` is what `omap_dm_timers_read_capture1` returned. -/
def timer_capture_irq (capture1 : Nat) (g : counter_globals) :
    Int × counter_globals × lock_id :=
  let lower := capture1 % 2 ^ 32
  let r := get_counter_internal_l g.tsdebug_counter_state lower
  (r.1, { g with tsdebug_counter_state := r.2 }, lock_id.counter_state_lock)

/-- `steelhead_get_raw_counter` on the globals: the value returned, the globals
afterwards, and the lock taken around the update. -/
def steelhead_get_raw_counter_locked (counter_timer : timer_ptr) (hw_counter : Nat)
    (g : counter_globals) : Int × counter_globals × lock_id :=
  let r := steelhead_get_raw_counter counter_timer hw_counter g.counter_state
  (r.1, { g with counter_state := r.2 }, lock_id.counter_state_lock)

/-! ## Rollover guard -/

/-- Modelled from the spec: the kernel macro `do_div(n, base)` is declared in
`asm/div64.h`, outside this file.  It replaces the unsigned 64-bit `n` by the
integer quotient of `n` by the 32-bit `base`; nothing is defined for a zero
`base`. -/
def do_div (n : Nat) (base : Nat) : Option Nat :=
  if base % 2 ^ 32 = 0 then none else some (n % 2 ^ 64 / (base % 2 ^ 32))

/-- What `steelhead_platform_init_counter` leaves in the globals of the
rollover check. -/
structure rollover_guard where
  counter_freq : Nat
  rollover_check_timer_period : Nat
  rollover_check_timer_expires : Nat
deriving DecidableEq

/-- `steelhead_platform_init_counter`, the part that sets the nominal
frequency, zeroes the two extension states and arms the rollover check.  `HZ`
is the kernel tick rate, `clk_rate` what `clk_get_rate` returned and `jiffies`
the tick count at the call; `none` when the division is undefined. -/
def steelhead_platform_init_counter (HZ clk_rate jiffies : Nat) :
    Option (counter_globals × rollover_guard) :=
  let counter_freq := clk_rate % 2 ^ 32
  let tmp := (0x40000000 * HZ) % 2 ^ 64
  match do_div tmp counter_freq with
  | none => none
  | some tmp =>
    let rollover_check_timer_period := tmp % 2 ^ 32
    some (⟨⟨0, 0⟩, ⟨0, 0⟩⟩,
      ⟨counter_freq, rollover_check_timer_period,
        (jiffies + rollover_check_timer_period) % 2 ^ 32⟩)

/-! ## Factory diagnostics -/

/-- The value of a signed 64-bit expression after wrap-around. -/
def s64_wrap (i : Int) : Int := s64_of_bits (u64_of_int i)

/-- The macro `do_div` applied to an `s64` variable: the 64-bit pattern of the
variable is divided as an unsigned number. -/
def do_div_s64 (n : Int) (base : Nat) : Option Int :=
  match do_div (u64_of_int n) base with
  | none => none
  | some q => some (s64_of_bits q)

/-- The globals of the factory test. -/
structure factory_test_state where
  vcxo_factory_test_32k_start_time : Nat
  vcxo_factory_test_38400k_start_time : Int
  vcxo_factory_test_in_progress : Int
deriving DecidableEq

/-- The globals the diagnostic nodes work on: the primary `counter_state` and
the factory-test globals. -/
structure diag_state where
  counter : counter_state
  test : factory_test_state
deriving DecidableEq

/-- `vcxo_debugfs_read_32k`; `reg_32k` is what the 32 KHz counter register holds. -/
def vcxo_debugfs_read_32k (reg_32k : Nat) : Nat := reg_32k % 2 ^ 32

/-- `vcxo_debugfs_test_open`: the `private_data` of the opened file (`NULL`). -/
def vcxo_debugfs_test_open : Nat := 0

/-- The arithmetic of `vcxo_debugfs_test_read` for a test that was in progress:
from the two deltas, the values `usec_delta_32k`, `usec_delta_38400k` and `ppm`
that are printed; `none` when a division is undefined. -/
def factory_test_result (delta_32k : Nat) (delta_38400k : Int) : Option (Int × Int × Int) :=
  match do_div_s64 (s64_wrap ((delta_32k : Int) * 15625)) 512 with
  | none => none
  | some usec_delta_32k =>
    match do_div_s64 (s64_wrap (delta_38400k * 10)) 384 with
    | none => none
    | some usec_delta_38400k =>
      let ppm := s64_wrap (usec_delta_38400k - usec_delta_32k)
      let ppm := s64_wrap (ppm * 1000000)
      if ppm < 0 then
        match do_div_s64 (s64_wrap (-ppm)) (u32_of_int usec_delta_32k) with
        | none => none
        | some q => some (usec_delta_32k, usec_delta_38400k, s64_wrap (-q))
      else
        match do_div_s64 ppm (u32_of_int usec_delta_32k) with
        | none => none
        | some q => some (usec_delta_32k, usec_delta_38400k, q)

/-- The text the two `snprintf` calls of `vcxo_debugfs_test_read` format, before
it is cut to the buffer: for the three values of a finished test, or for a test
that was not started. -/
def factory_test_text : Option (Int × Int × Int) → List Char
  | none => ("VCXO Factory Test was not started.\n").data
  | some (usec_delta_32k, usec_delta_38400k, ppm) =>
    ("VCXO Factory Test\n").data
      ++ ("uSec on 32 KHz Clock   = ").data ++ (toString usec_delta_32k).data ++ ['\n']
      ++ ("uSec on 38.4 MHz Clock = ").data ++ (toString usec_delta_38400k).data ++ ['\n']
      ++ ("ppm difference         = ").data ++ (toString ppm).data ++ ['\n']

def EFAULT : Int := 14

/-- Modelled from the spec: `copy_to_user` is a kernel service outside this
file.  It returns the number of bytes it could not copy: zero on success, and
all of them when the copy to the caller fails. -/
def copy_to_user (fault : Bool) (amt : Nat) : Nat := if fault then amt else 0

/-- What a call of `vcxo_debugfs_test_read` leaves: the return value, the
content of `buf`, the bytes handed to the caller, the file's `private_data`,
and the globals. -/
structure test_read_result where
  ret_val : Int
  buf : List Char
  copied : List Char
  private_data : Nat
  state : diag_state
deriving DecidableEq

/-- The end of `vcxo_debugfs_test_read`, from `buf[sizeof(buf) - 1] = 0` on:
`text` is what `snprintf` was asked to format into the 512-byte buffer. -/
def test_read_finish (text : List Char) (count : Nat) (copy_fault : Bool) (state : diag_state) :
    test_read_result :=
  let buf := text.take 511
  let amt := if buf.length > count then count else buf.length
  if copy_to_user copy_fault amt ≠ 0 then ⟨-EFAULT, buf, [], 1, state⟩
  else ⟨(amt : Int), buf, buf.take amt, 1, state⟩

/-- `vcxo_debugfs_test_read`.  `private_data` is `f->private_data` (0 is
`NULL`), `copy_fault` tells whether the copy to `user_buf` fails, `reg_32k` and
`hw_counter` are what the two hardware counters hold at the call; `none` when
a division is undefined. -/
def vcxo_debugfs_test_read (private_data count : Nat) (copy_fault : Bool)
    (reg_32k : Nat) (counter_timer : timer_ptr) (hw_counter : Nat) (s : diag_state) :
    Option test_read_result :=
  if private_data ≠ 0 then some ⟨0, [], [], 1, s⟩
  else
    let was_in_progress := s.test.vcxo_factory_test_in_progress
    let test1 : factory_test_state := { s.test with vcxo_factory_test_in_progress := 0 }
    if was_in_progress ≠ 0 then
      let delta_32k := u32_of_int ((vcxo_debugfs_read_32k reg_32k : Int)
        - (s.test.vcxo_factory_test_32k_start_time : Int))
      let r := steelhead_get_raw_counter counter_timer hw_counter s.counter
      let delta_38400k := s64_wrap (r.1 - s.test.vcxo_factory_test_38400k_start_time)
      match factory_test_result delta_32k delta_38400k with
      | none => none
      | some m => some (test_read_finish (factory_test_text (some m)) count copy_fault ⟨r.2, test1⟩)
    else some (test_read_finish (factory_test_text none) count copy_fault ⟨s.counter, test1⟩)

/-- `vcxo_debugfs_test_write`: the return value and the globals afterwards. -/
def vcxo_debugfs_test_write (count : Nat) (reg_32k : Nat) (counter_timer : timer_ptr)
    (hw_counter : Nat) (s : diag_state) : Int × diag_state :=
  let start_32k := vcxo_debugfs_read_32k reg_32k
  let r := steelhead_get_raw_counter counter_timer hw_counter s.counter
  ((count : Int), ⟨r.2, ⟨start_32k, r.1, 1⟩⟩)

/-- A request on the `factory_test` node, with what the hardware counters hold
when it is served: a write (start) or an open followed by a read. -/
inductive test_request where
  | start (count reg_32k hw_counter : Nat) : test_request
  | read (count : Nat) (copy_fault : Bool) (reg_32k hw_counter : Nat) : test_request
deriving DecidableEq

/-- Serving a sequence of requests in order, each read on a freshly opened
file: the globals afterwards, `none` when some read was undefined. -/
def run_test_requests (counter_timer : timer_ptr) :
    diag_state → List test_request → Option diag_state
  | s, [] => some s
  | s, test_request.start count reg_32k hw_counter :: rest =>
    run_test_requests counter_timer
      (vcxo_debugfs_test_write count reg_32k counter_timer hw_counter s).2 rest
  | s, test_request.read count copy_fault reg_32k hw_counter :: rest =>
    match vcxo_debugfs_test_read vcxo_debugfs_test_open count copy_fault reg_32k
        counter_timer hw_counter s with
    | none => none
    | some r => run_test_requests counter_timer r.state rest

/-! ## Basic facts about the machine-integer operations -/

theorem and_two_pow_bne_zero (a n : Nat) : ((a &&& 2 ^ n) != 0) = a.testBit n := by
  cases h : a.testBit n
  · have h0 : a &&& 2 ^ n = 0 := by
      apply Nat.eq_of_testBit_eq
      intro i
      rw [Nat.testBit_and, Nat.testBit_two_pow, Nat.zero_testBit]
      by_cases hi : n = i
      · subst hi; simp [h]
      · simp [hi]
    simp [h0]
  · have h1 : (a &&& 2 ^ n).testBit n = true := by
      rw [Nat.testBit_and, Nat.testBit_two_pow_self, h]; rfl
    have h2 : a &&& 2 ^ n ≠ 0 := by
      intro h0
      rw [h0, Nat.zero_testBit] at h1
      exact Bool.noConfusion h1
    simpa using h2

theorem rollover_detected_eq (state : counter_state) (lower : Nat) :
    rollover_detected state lower
      = (state.lower_last.testBit 31 && !lower.testBit 31) := by
  have h31 : (0x80000000 : Nat) = 2 ^ 31 := by norm_num
  unfold rollover_detected
  rw [h31, and_two_pow_bne_zero, Nat.testBit_and, Nat.testBit_xor, Nat.testBit_two_pow_self]
  cases state.lower_last.testBit 31 <;> cases lower.testBit 31 <;> rfl

theorem testBit_31_eq (x : Nat) (h : x < 2 ^ 32) : x.testBit 31 = decide (2 ^ 31 ≤ x) := by
  rw [Nat.testBit_to_div_mod]
  norm_num at h ⊢
  omega

theorem shiftLeft_32_or (u l : Nat) (hl : l < 2 ^ 32) : (u <<< 32) ||| l = u * 2 ^ 32 + l := by
  rw [Nat.shiftLeft_eq, Nat.mul_comm u, Nat.mul_add_lt_is_or hl]

theorem s64_of_bits_of_lt (n : Nat) (h : n < 2 ^ 63) : s64_of_bits n = (n : Int) := by
  have h64 : n % 2 ^ 64 = n := Nat.mod_eq_of_lt (by omega)
  unfold s64_of_bits
  rw [h64, if_pos h]

theorem u64_of_int_s64_of_bits (n : Nat) (h : n < 2 ^ 64) : u64_of_int (s64_of_bits n) = n := by
  have h64 : n % 2 ^ 64 = n := Nat.mod_eq_of_lt h
  unfold s64_of_bits u64_of_int
  rw [h64]
  split <;> omega

/-! ## The extension tracks a slowly advancing count -/

/-- When consecutive true counts are at most half a period apart, a rollover
is detected exactly when the high word of the true count advanced. -/
theorem rollover_detected_tracks (u c c' : Nat) (hle : c ≤ c') (hd : c' - c ≤ 2 ^ 31) :
    rollover_detected ⟨u, c % 2 ^ 32⟩ (c' % 2 ^ 32) = decide (c / 2 ^ 32 < c' / 2 ^ 32) := by
  have hl : c % 2 ^ 32 < 2 ^ 32 := Nat.mod_lt _ (by norm_num)
  have hl' : c' % 2 ^ 32 < 2 ^ 32 := Nat.mod_lt _ (by norm_num)
  rw [rollover_detected_eq, testBit_31_eq _ hl, testBit_31_eq _ hl', Bool.eq_iff_iff]
  simp only [Bool.and_eq_true, Bool.not_eq_true', decide_eq_true_eq, decide_eq_false_iff_not]
  norm_num at hd ⊢
  omega

/-- One call of `get_counter_internal_l` from a state that holds the true count
`c` up to a fixed offset of `K` periods, on the low word of a true count `c'`
that is at most half a period ahead: the call returns `c'` less the same
offset and the state holds `c'` in the same way. -/
theorem get_counter_internal_l_tracks (K u c c' : Nat) (hK : c / 2 ^ 32 = u + K)
    (hle : c ≤ c') (hd : c' - c ≤ 2 ^ 31) (hc' : c' < 2 ^ 63) :
    get_counter_internal_l ⟨u, c % 2 ^ 32⟩ (c' % 2 ^ 32)
      = (((c' - K * 2 ^ 32 : Nat) : Int), ⟨c' / 2 ^ 32 - K, c' % 2 ^ 32⟩) := by
  have hl' : c' % 2 ^ 32 < 2 ^ 32 := Nat.mod_lt _ (by norm_num)
  have hroll := rollover_detected_tracks u c c' hle hd
  have hup : (if rollover_detected ⟨u, c % 2 ^ 32⟩ (c' % 2 ^ 32) = true
      then (u + 1) % 2 ^ 32 else u) = c' / 2 ^ 32 - K := by
    rw [hroll]
    norm_num at hK hd hc' ⊢
    split <;> omega
  unfold get_counter_internal_l
  simp only [hup]
  rw [shiftLeft_32_or _ _ hl', s64_of_bits_of_lt]
  · congr 2
    norm_num at hK hd hc' ⊢
    omega
  · norm_num at hK hd hc' ⊢
    omega

/-- A run of calls on the low words of true counts, each at most half a
period after the one before: every call returns its true count less the fixed
offset, and leaves the state holding that count. -/
theorem feed_samples_tracks (K : Nat) :
    ∀ (cs : List Nat) (u c : Nat), c / 2 ^ 32 = u + K →
      List.Chain (fun a b => a ≤ b ∧ b - a ≤ 2 ^ 31) c cs →
      (∀ x ∈ cs, x < 2 ^ 63) →
      feed_samples ⟨u, c % 2 ^ 32⟩ (cs.map (fun x => x % 2 ^ 32))
        = cs.map (fun x => (((x - K * 2 ^ 32 : Nat) : Int),
            (⟨x / 2 ^ 32 - K, x % 2 ^ 32⟩ : counter_state))) := by
  intro cs
  induction cs with
  | nil => intro u c _ _ _; rfl
  | cons c' rest ih =>
    intro u c hK hchain hbound
    rw [List.chain_cons] at hchain
    obtain ⟨⟨hle, hd⟩, hrest⟩ := hchain
    have hc' : c' < 2 ^ 63 := hbound c' (List.mem_cons_self _ _)
    have hstep := get_counter_internal_l_tracks K u c c' hK hle hd hc'
    have hK' : c' / 2 ^ 32 = (c' / 2 ^ 32 - K) + K := by
      have : c / 2 ^ 32 ≤ c' / 2 ^ 32 := Nat.div_le_div_right hle
      omega
    have htail := ih (c' / 2 ^ 32 - K) c' hK' hrest
      (fun x hx => hbound x (List.mem_cons_of_mem _ hx))
    simp only [List.map_cons, feed_samples, hstep, htail]

/-- A sample that is not below the previous one never triggers the rollover test. -/
theorem rollover_detected_of_le (state : counter_state) (lower : Nat)
    (hle : state.lower_last ≤ lower) (hl : lower < 2 ^ 32) :
    rollover_detected state lower = false := by
  have hll : state.lower_last < 2 ^ 32 := Nat.lt_of_le_of_lt hle hl
  rw [rollover_detected_eq, testBit_31_eq _ hll, testBit_31_eq _ hl]
  simp only [Bool.and_eq_false_iff, Bool.not_eq_false', decide_eq_true_eq,
    decide_eq_false_iff_not]
  omega

theorem feed_samples_upper_of_chain_le :
    ∀ (xs : List Nat) (state : counter_state),
      List.Chain (fun a b => a ≤ b) state.lower_last xs →
      (∀ x ∈ xs, x < 2 ^ 32) →
      ∀ r ∈ feed_samples state xs, r.2.upper = state.upper := by
  intro xs
  induction xs with
  | nil => intro state _ _ r hr; simp [feed_samples] at hr
  | cons x rest ih =>
    intro state hchain hbound r hr
    rw [List.chain_cons] at hchain
    obtain ⟨hle, hrest⟩ := hchain
    have hx : x < 2 ^ 32 := hbound x (List.mem_cons_self _ _)
    have hno := rollover_detected_of_le state x hle hx
    have hstep : (get_counter_internal_l state x).2 = ⟨state.upper, x⟩ := by
      simp [get_counter_internal_l, hno]
    simp only [feed_samples, List.mem_cons] at hr
    rcases hr with hr | hr
    · rw [hr, hstep]
    · rw [hstep] at hr
      exact ih ⟨state.upper, x⟩ hrest (fun y hy => hbound y (List.mem_cons_of_mem _ hy)) r hr

theorem state_value_div_mod (x : Nat) : state_value ⟨x / 2 ^ 32, x % 2 ^ 32⟩ = x := by
  unfold state_value
  rw [shiftLeft_32_or _ _ (Nat.mod_lt _ (by norm_num))]
  exact Nat.div_add_mod' x (2 ^ 32)

/-- The 64-bit pattern returned by one call is the new upper word followed by
the sample. -/
theorem get_counter_internal_l_bits (state : counter_state) (lower : Nat)
    (hupper : state.upper < 2 ^ 32) (hlower : lower < 2 ^ 32) :
    u64_of_int (get_counter_internal_l state lower).1
        = (get_counter_internal_l state lower).2.upper * 2 ^ 32 + lower ∧
      (get_counter_internal_l state lower).2.upper < 2 ^ 32 := by
  have hnew : (if rollover_detected state lower = true
      then (state.upper + 1) % 2 ^ 32 else state.upper) < 2 ^ 32 := by
    split
    · exact Nat.mod_lt _ (by norm_num)
    · exact hupper
  unfold get_counter_internal_l
  simp only
  generalize (if rollover_detected state lower = true
      then (state.upper + 1) % 2 ^ 32 else state.upper) = u1 at hnew ⊢
  rw [shiftLeft_32_or _ _ hlower]
  refine ⟨?_, hnew⟩
  apply u64_of_int_s64_of_bits
  norm_num at hnew hlower ⊢
  omega

/-! ## The three duty regimes of `steelhead_set_vcxo_rate` -/

/-- The always-off path: taken when the match position is zero. -/
theorem set_vcxo_rate_always_off (rate : Int) (t : omap_dm_timer) (last : Int)
    (h : match_pos rate = 0) :
    steelhead_set_vcxo_rate rate ⟨some t, last⟩
      = (⟨some { t with ctrl := (t.ctrl &&& not32 TIMER_CTRL_ST)
                  &&& not32 (TIMER_CTRL_GPOCFG ||| TIMER_CTRL_SCPWM) }, rate⟩,
         [reg_access.read TIMER_CTRL_OFFSET,
          reg_access.write TIMER_CTRL_OFFSET (t.ctrl &&& not32 TIMER_CTRL_ST),
          reg_access.write TIMER_CTRL_OFFSET ((t.ctrl &&& not32 TIMER_CTRL_ST)
            &&& not32 (TIMER_CTRL_GPOCFG ||| TIMER_CTRL_SCPWM))]) := by
  simp only [steelhead_set_vcxo_rate, h, if_true, timer_read_reg, timer_write_reg,
    List.cons_append, List.nil_append]

/-- The always-on path: taken when the match position is not zero and the
absolute match value reaches `0xFFFFFFFE`. -/
theorem set_vcxo_rate_always_on (rate : Int) (t : omap_dm_timer) (last : Int)
    (h0 : match_pos rate ≠ 0)
    (h : 0xFFFFFFFE ≤ (match_pos rate + VCXO_TIMER_START) % 2 ^ 32) :
    steelhead_set_vcxo_rate rate ⟨some t, last⟩
      = (⟨some { t with ctrl := (t.ctrl &&& not32 TIMER_CTRL_ST)
                  &&& not32 TIMER_CTRL_GPOCFG ||| TIMER_CTRL_SCPWM }, rate⟩,
         [reg_access.read TIMER_CTRL_OFFSET,
          reg_access.write TIMER_CTRL_OFFSET (t.ctrl &&& not32 TIMER_CTRL_ST),
          reg_access.write TIMER_CTRL_OFFSET ((t.ctrl &&& not32 TIMER_CTRL_ST)
            &&& not32 TIMER_CTRL_GPOCFG ||| TIMER_CTRL_SCPWM)]) := by
  simp only [steelhead_set_vcxo_rate, h0, h, if_false, ge_iff_le, if_true, timer_read_reg,
    timer_write_reg, List.cons_append, List.nil_append]

/-- The variable-duty path: taken in every other case. -/
theorem set_vcxo_rate_variable (rate : Int) (t : omap_dm_timer) (last : Int)
    (h0 : match_pos rate ≠ 0)
    (h : ¬ 0xFFFFFFFE ≤ (match_pos rate + VCXO_TIMER_START) % 2 ^ 32) :
    steelhead_set_vcxo_rate rate ⟨some t, last⟩
      = (⟨some { ctrl := (t.ctrl &&& not32 TIMER_CTRL_ST)
                  &&& not32 (TIMER_CTRL_GPOCFG ||| TIMER_CTRL_SCPWM ||| TIMER_CTRL_TRIG_MASK)
                  ||| (TIMER_CTRL_CE ||| TIMER_CTRL_AR ||| TIMER_CTRL_ST ||| TIMER_CTRL_PT
                        ||| TIMER_CTRL_TRIG_OVFL_MATCH),
                 load := VCXO_TIMER_START,
                 match_reg := (match_pos rate + VCXO_TIMER_START) % 2 ^ 32,
                 counter := 0xFFFFFFFD }, rate⟩,
         [reg_access.read TIMER_CTRL_OFFSET,
          reg_access.write TIMER_CTRL_OFFSET (t.ctrl &&& not32 TIMER_CTRL_ST),
          reg_access.write TIMER_LOAD_OFFSET VCXO_TIMER_START,
          reg_access.write TIMER_MATCH_OFFSET ((match_pos rate + VCXO_TIMER_START) % 2 ^ 32),
          reg_access.write TIMER_COUNTER_OFFSET 0xFFFFFFFD,
          reg_access.write TIMER_CTRL_OFFSET ((t.ctrl &&& not32 TIMER_CTRL_ST)
            &&& not32 (TIMER_CTRL_GPOCFG ||| TIMER_CTRL_SCPWM ||| TIMER_CTRL_TRIG_MASK)
            ||| (TIMER_CTRL_CE ||| TIMER_CTRL_AR ||| TIMER_CTRL_ST ||| TIMER_CTRL_PT
                  ||| TIMER_CTRL_TRIG_OVFL_MATCH))]) := by
  have e1 : TIMER_LOAD_OFFSET ≠ TIMER_CTRL_OFFSET := by decide
  have e2 : TIMER_LOAD_OFFSET ≠ TIMER_COUNTER_OFFSET := by decide
  have e3 : TIMER_MATCH_OFFSET ≠ TIMER_CTRL_OFFSET := by decide
  have e4 : TIMER_MATCH_OFFSET ≠ TIMER_COUNTER_OFFSET := by decide
  have e5 : TIMER_MATCH_OFFSET ≠ TIMER_LOAD_OFFSET := by decide
  have e6 : TIMER_COUNTER_OFFSET ≠ TIMER_CTRL_OFFSET := by decide
  simp only [steelhead_set_vcxo_rate, h0, h, if_false, ge_iff_le, if_true, timer_read_reg,
    timer_write_reg, List.cons_append, List.nil_append, e1, e2, e3, e4, e5, e6]

/-- In every regime the rate asked for is recorded as `vcxo_last_rate`. -/
theorem set_vcxo_rate_last_rate (rate : Int) (t : omap_dm_timer) (last : Int) :
    (steelhead_set_vcxo_rate rate ⟨some t, last⟩).1.vcxo_last_rate = rate := by
  by_cases h0 : match_pos rate = 0
  · rw [set_vcxo_rate_always_off rate t last h0]
  · by_cases h : 0xFFFFFFFE ≤ (match_pos rate + VCXO_TIMER_START) % 2 ^ 32
    · rw [set_vcxo_rate_always_on rate t last h0 h]
    · rw [set_vcxo_rate_variable rate t last h0 h]

/-- Clearing with two masks twice is the same as clearing once. -/
theorem and_and_idem (x a m : Nat) : ((x &&& a &&& m) &&& a) &&& m = x &&& a &&& m := by
  apply Nat.eq_of_testBit_eq
  intro i
  simp only [Nat.testBit_and]
  generalize x.testBit i = bx
  generalize a.testBit i = ba
  generalize m.testBit i = bm
  revert bx ba bm
  decide

/-- Clearing with two masks and setting bits, twice, is the same as once. -/
theorem and_and_or_idem (x a m b : Nat) :
    ((x &&& a &&& m ||| b) &&& a) &&& m ||| b = x &&& a &&& m ||| b := by
  apply Nat.eq_of_testBit_eq
  intro i
  simp only [Nat.testBit_and, Nat.testBit_or]
  generalize x.testBit i = bx
  generalize a.testBit i = ba
  generalize m.testBit i = bm
  generalize b.testBit i = bb
  revert bx ba bm bb
  decide

/-- The match position of a signed 16-bit rate, without wrap-around. -/
theorem match_pos_eq (rate : Int) (hlo : -32768 ≤ rate) (hhi : rate ≤ 32767) :
    match_pos rate = (rate + 32768).toNat * 1024 / 65536 := by
  unfold match_pos u32_of_int VCXO_CYCLE_TICKS
  rw [Nat.shiftRight_eq_div_pow]
  norm_num
  omega

/-! ## The polling loop of the write-pending wait -/

/-- The test of the polling loop looks at the low 8 bits of the value read. -/
theorem wp_low8 (x : Nat) : (x % 2 ^ 32) &&& 0xff = x % 256 := by
  have h := Nat.and_pow_two_sub_one_eq_mod (x % 2 ^ 32) 8
  norm_num at h ⊢
  omega

/-- The polling loop entered with counter `i`, `budget` iterations left and
`polls` polls made: it stops with a counter between `i` and `i + budget`, every
poll before the stop showed a pending write, a stop before the budget is used
up is at a poll that showed none, and the polls are counted. -/
theorem wp_poll_loop_spec (wp : Nat → Nat) :
    ∀ (budget i polls : Nat),
      i ≤ (wp_poll_loop wp budget i polls).1 ∧
      (wp_poll_loop wp budget i polls).1 ≤ i + budget ∧
      (∀ j, i ≤ j → j < (wp_poll_loop wp budget i polls).1 → wp j % 256 ≠ 0) ∧
      ((wp_poll_loop wp budget i polls).1 < i + budget →
        wp (wp_poll_loop wp budget i polls).1 % 256 = 0 ∧
        (wp_poll_loop wp budget i polls).2
          = polls + ((wp_poll_loop wp budget i polls).1 - i + 1)) ∧
      ((wp_poll_loop wp budget i polls).1 = i + budget →
        (wp_poll_loop wp budget i polls).2 = polls + budget) := by
  intro budget
  induction budget with
  | zero =>
    intro i polls
    simp only [wp_poll_loop]
    refine ⟨Nat.le_refl _, Nat.le_refl _, ?_, ?_, ?_⟩
    · intro j h1 h2; omega
    · intro h; omega
    · intro _; rfl
  | succ budget ih =>
    intro i polls
    by_cases hp : wp i % 256 = 0
    · have hcond : ¬ (wp i % 2 ^ 32) &&& 0xff ≠ 0 := by
        rw [wp_low8, hp]
        simp
      simp only [wp_poll_loop, if_neg hcond]
      refine ⟨Nat.le_refl _, by omega, ?_, ?_, ?_⟩
      · intro j h1 h2; omega
      · intro _; exact ⟨hp, by omega⟩
      · intro h; omega
    · have hcond : (wp i % 2 ^ 32) &&& 0xff ≠ 0 := by
        rw [wp_low8]
        exact hp
      obtain ⟨h1, h2, h3, h4, h5⟩ := ih (i + 1) (polls + 1)
      simp only [wp_poll_loop, if_pos hcond]
      refine ⟨by omega, by omega, ?_, ?_, ?_⟩
      · intro j hj1 hj2
        by_cases hji : j = i
        · rw [hji]; exact hp
        · exact h3 j (by omega) hj2
      · intro hlt
        obtain ⟨h6, h7⟩ := h4 (by omega)
        exact ⟨h6, by omega⟩
      · intro heq
        have := h5 (by omega)
        omega

/-! ## The bits of CTRL after each duty regime -/

theorem testBit_of_lt_two_pow_32 (x : Nat) (hx : x < 2 ^ 32) (i : Nat) (hi : 32 ≤ i) :
    x.testBit i = false :=
  Nat.testBit_lt_two_pow (Nat.lt_of_lt_of_le hx (Nat.pow_le_pow_right (by norm_num) hi))

/-- CTRL after the variable-duty path, bit by bit. -/
theorem ctrl_bits_variable (x : Nat) (hx : x < 2 ^ 32) (i : Nat) :
    ((x &&& not32 TIMER_CTRL_ST)
        &&& not32 (TIMER_CTRL_GPOCFG ||| TIMER_CTRL_SCPWM ||| TIMER_CTRL_TRIG_MASK)
        ||| (TIMER_CTRL_CE ||| TIMER_CTRL_AR ||| TIMER_CTRL_ST ||| TIMER_CTRL_PT
              ||| TIMER_CTRL_TRIG_OVFL_MATCH)).testBit i
      = (if i ∈ [0, 1, 6, 11, 12] then true
         else if i ∈ [7, 10, 14] then false else x.testBit i) := by
  rw [Nat.testBit_or, Nat.testBit_and, Nat.testBit_and]
  by_cases hi : i < 32
  · have key : ∀ j < 32, ∀ b : Bool,
        ((b && (not32 TIMER_CTRL_ST).testBit j
            && (not32 (TIMER_CTRL_GPOCFG ||| TIMER_CTRL_SCPWM
                  ||| TIMER_CTRL_TRIG_MASK)).testBit j)
          || (TIMER_CTRL_CE ||| TIMER_CTRL_AR ||| TIMER_CTRL_ST ||| TIMER_CTRL_PT
                ||| TIMER_CTRL_TRIG_OVFL_MATCH).testBit j)
        = (if j ∈ [0, 1, 6, 11, 12] then true
           else if j ∈ [7, 10, 14] then false else b) := by
      decide
    exact key i hi _
  · have hi32 : 32 ≤ i := by omega
    have h1 : x.testBit i = false := testBit_of_lt_two_pow_32 x hx i hi32
    have h2 : (TIMER_CTRL_CE ||| TIMER_CTRL_AR ||| TIMER_CTRL_ST ||| TIMER_CTRL_PT
        ||| TIMER_CTRL_TRIG_OVFL_MATCH).testBit i = false :=
      testBit_of_lt_two_pow_32 _ (by decide) i hi32
    have h3 : i ∉ [0, 1, 6, 11, 12] := by simp; omega
    have h4 : i ∉ [7, 10, 14] := by simp; omega
    rw [h1, h2, if_neg h3, if_neg h4]
    rfl

/-- CTRL after the always-off path, bit by bit. -/
theorem ctrl_bits_always_off (x : Nat) (hx : x < 2 ^ 32) (i : Nat) :
    ((x &&& not32 TIMER_CTRL_ST)
        &&& not32 (TIMER_CTRL_GPOCFG ||| TIMER_CTRL_SCPWM)).testBit i
      = (if i ∈ [0, 7, 14] then false else x.testBit i) := by
  rw [Nat.testBit_and, Nat.testBit_and]
  by_cases hi : i < 32
  · have key : ∀ j < 32, ∀ b : Bool,
        (b && (not32 TIMER_CTRL_ST).testBit j
            && (not32 (TIMER_CTRL_GPOCFG ||| TIMER_CTRL_SCPWM)).testBit j)
        = (if j ∈ [0, 7, 14] then false else b) := by
      decide
    exact key i hi _
  · have hi32 : 32 ≤ i := by omega
    have h1 : x.testBit i = false := testBit_of_lt_two_pow_32 x hx i hi32
    have h3 : i ∉ [0, 7, 14] := by simp; omega
    rw [h1, if_neg h3]
    rfl

/-- CTRL after the always-on path, bit by bit. -/
theorem ctrl_bits_always_on (x : Nat) (hx : x < 2 ^ 32) (i : Nat) :
    ((x &&& not32 TIMER_CTRL_ST) &&& not32 TIMER_CTRL_GPOCFG
        ||| TIMER_CTRL_SCPWM).testBit i
      = (if i = 7 then true else if i ∈ [0, 14] then false else x.testBit i) := by
  rw [Nat.testBit_or, Nat.testBit_and, Nat.testBit_and]
  by_cases hi : i < 32
  · have key : ∀ j < 32, ∀ b : Bool,
        ((b && (not32 TIMER_CTRL_ST).testBit j && (not32 TIMER_CTRL_GPOCFG).testBit j)
          || TIMER_CTRL_SCPWM.testBit j)
        = (if j = 7 then true else if j ∈ [0, 14] then false else b) := by
      decide
    exact key i hi _
  · have hi32 : 32 ≤ i := by omega
    have h1 : x.testBit i = false := testBit_of_lt_two_pow_32 x hx i hi32
    have h2 : TIMER_CTRL_SCPWM.testBit i = false :=
      testBit_of_lt_two_pow_32 _ (by decide) i hi32
    have h3 : ¬ i = 7 := by omega
    have h4 : i ∉ [0, 14] := by simp; omega
    rw [h1, h2, if_neg h3, if_neg h4]
    rfl

/-- Whatever CTRL held, the value written first has the ST bit clear. -/
theorem st_clear_after_stop (x : Nat) : (x &&& not32 TIMER_CTRL_ST).testBit 0 = false := by
  rw [Nat.testBit_and, show (not32 TIMER_CTRL_ST).testBit 0 = false from by decide]
  exact Bool.and_false _

/-- The CTRL value of the always-off path has the ST bit clear. -/
theorem st_clear_always_off (x : Nat) :
    ((x &&& not32 TIMER_CTRL_ST)
      &&& not32 (TIMER_CTRL_GPOCFG ||| TIMER_CTRL_SCPWM)).testBit 0 = false := by
  rw [Nat.testBit_and, st_clear_after_stop]
  exact Bool.false_and _

/-- The CTRL value of the always-on path has the ST bit clear. -/
theorem st_clear_always_on (x : Nat) :
    ((x &&& not32 TIMER_CTRL_ST) &&& not32 TIMER_CTRL_GPOCFG
      ||| TIMER_CTRL_SCPWM).testBit 0 = false := by
  rw [Nat.testBit_or, Nat.testBit_and, st_clear_after_stop,
    show TIMER_CTRL_SCPWM.testBit 0 = false from by decide]
  rfl

/-- For a signed 16-bit rate the match position is at most 1023 and adding
`VCXO_TIMER_START` to it does not wrap. -/
theorem match_abs_no_wrap (rate : Int) (hlo : -32768 ≤ rate) (hhi : rate ≤ 32767) :
    match_pos rate ≤ 1023 ∧
    (match_pos rate + VCXO_TIMER_START) % 2 ^ 32 = match_pos rate + VCXO_TIMER_START := by
  have hmp : match_pos rate ≤ 1023 := by
    rw [match_pos_eq rate hlo hhi]
    omega
  refine ⟨hmp, Nat.mod_eq_of_lt ?_⟩
  have hs : VCXO_TIMER_START = 0xFFFFFBFF := by decide
  rw [hs]
  norm_num
  omega

/-! ## Facts about the factory-test arithmetic -/

theorem s64_wrap_of_range (i : Int) (hlo : -2 ^ 63 ≤ i) (hhi : i < 2 ^ 63) : s64_wrap i = i := by
  unfold s64_wrap s64_of_bits u64_of_int
  norm_num at hlo hhi ⊢
  split <;> omega

/-- Dividing a non-negative `s64` by a non-zero 32-bit divisor with `do_div`
is integer division. -/
theorem do_div_s64_of_nonneg (n : Int) (base : Nat) (hn : 0 ≤ n) (hn63 : n < 2 ^ 63)
    (hb : 0 < base) (hb32 : base < 2 ^ 32) :
    do_div_s64 n base = some (n / (base : Int)) := by
  have hbase : base % 2 ^ 32 = base := Nat.mod_eq_of_lt hb32
  have hne : ¬ base % 2 ^ 32 = 0 := by omega
  obtain ⟨m, rfl⟩ := Int.eq_ofNat_of_zero_le hn
  have hm : m < 2 ^ 63 := by exact_mod_cast hn63
  have hu : u64_of_int (m : Int) = m := by
    unfold u64_of_int
    norm_num at hm ⊢
    omega
  have hq : m / base < 2 ^ 63 := Nat.lt_of_le_of_lt (Nat.div_le_self _ _) hm
  unfold do_div_s64 do_div
  rw [if_neg hne, hu, hbase, Nat.mod_eq_of_lt (by omega : m < 2 ^ 64)]
  simp only [s64_of_bits_of_lt _ hq]
  rfl

/-- Dividing by a divisor whose low 32 bits are zero is undefined. -/
theorem do_div_s64_zero (n : Int) (base : Nat) (hb : base % 2 ^ 32 = 0) :
    do_div_s64 n base = none := by
  unfold do_div_s64 do_div
  rw [if_pos hb]

/-- The two microsecond conversions of the factory test, as the code computes
them: multiply, then `do_div`. -/
theorem usec_conversions (d32 d38 : Nat) (h32 : d32 < 2 ^ 32) (h38 : d38 * 10 < 2 ^ 63) :
    do_div_s64 (s64_wrap ((d32 : Int) * 15625)) 512
      = some ((d32 * 15625 / 512 : Nat) : Int) ∧
    do_div_s64 (s64_wrap ((d38 : Int) * 10)) 384
      = some ((d38 * 10 / 384 : Nat) : Int) := by
  have h1 : s64_wrap ((d32 : Int) * 15625) = ((d32 * 15625 : Nat) : Int) := by
    rw [s64_wrap_of_range] <;> norm_num at h32 ⊢ <;> omega
  have h2 : s64_wrap ((d38 : Int) * 10) = ((d38 * 10 : Nat) : Int) := by
    rw [s64_wrap_of_range] <;> norm_num at h38 ⊢ <;> omega
  constructor
  · rw [h1, do_div_s64_of_nonneg _ 512 (by omega) (by norm_num at h32 ⊢; omega)
      (by norm_num) (by norm_num)]
    norm_num
  · rw [h2, do_div_s64_of_nonneg _ 384 (by omega) (by exact_mod_cast h38)
      (by norm_num) (by norm_num)]
    norm_num

/-- The result of the factory test when the two microsecond conversions stay
in range: the two conversions are exact, and what is left is the division that
gives `ppm`. -/
theorem factory_test_result_eq (d32 d38 : Nat) (h32 : d32 < 2 ^ 32) (h38 : d38 * 10 < 2 ^ 63) :
    factory_test_result d32 (d38 : Int)
      = (if s64_wrap (s64_wrap (((d38 * 10 / 384 : Nat) : Int) - ((d32 * 15625 / 512 : Nat) : Int))
              * 1000000) < 0 then
          match do_div_s64
              (s64_wrap (-s64_wrap (s64_wrap (((d38 * 10 / 384 : Nat) : Int)
                - ((d32 * 15625 / 512 : Nat) : Int)) * 1000000)))
              (u32_of_int ((d32 * 15625 / 512 : Nat) : Int)) with
          | none => none
          | some q => some (((d32 * 15625 / 512 : Nat) : Int), ((d38 * 10 / 384 : Nat) : Int),
              s64_wrap (-q))
        else
          match do_div_s64
              (s64_wrap (s64_wrap (((d38 * 10 / 384 : Nat) : Int)
                - ((d32 * 15625 / 512 : Nat) : Int)) * 1000000))
              (u32_of_int ((d32 * 15625 / 512 : Nat) : Int)) with
          | none => none
          | some q => some (((d32 * 15625 / 512 : Nat) : Int), ((d38 * 10 / 384 : Nat) : Int),
              q)) := by
  obtain ⟨e1, e2⟩ := usec_conversions d32 d38 h32 h38
  unfold factory_test_result
  simp only [e1, e2]

/-- A division by a divisor with non-zero low 32 bits is defined. -/
theorem do_div_s64_defined (n : Int) (base : Nat) (hb : base % 2 ^ 32 ≠ 0) :
    ∃ q, do_div_s64 n base = some q := by
  unfold do_div_s64 do_div
  rw [if_neg hb]
  exact ⟨_, rfl⟩

/-- What the end of `vcxo_debugfs_test_read` leaves, field by field. -/
theorem test_read_finish_fields (text : List Char) (count : Nat) (copy_fault : Bool)
    (state : diag_state) :
    (test_read_finish text count copy_fault state).buf = text.take 511 ∧
    (test_read_finish text count copy_fault state).state = state ∧
    (test_read_finish text count copy_fault state).private_data = 1 ∧
    (test_read_finish text count copy_fault state).ret_val
      = (if copy_fault = true ∧ min (text.take 511).length count ≠ 0 then -EFAULT
          else ((min (text.take 511).length count : Nat) : Int)) := by
  have hamt : (if (text.take 511).length > count then count else (text.take 511).length)
      = min (text.take 511).length count := by
    split <;> omega
  unfold test_read_finish copy_to_user
  simp only [hamt]
  generalize min (text.take 511).length count = amt
  generalize text.take 511 = buf
  cases copy_fault
  · simp
  · by_cases h0 : amt = 0 <;> simp [h0]

/-- A read of a test in progress, on a freshly opened file. -/
theorem vcxo_debugfs_test_read_armed (count : Nat) (copy_fault : Bool) (reg_32k : Nat)
    (counter_timer : timer_ptr) (hw_counter : Nat) (s : diag_state)
    (h : s.test.vcxo_factory_test_in_progress ≠ 0) :
    vcxo_debugfs_test_read 0 count copy_fault reg_32k counter_timer hw_counter s
      = match factory_test_result
            (u32_of_int ((vcxo_debugfs_read_32k reg_32k : Int)
              - (s.test.vcxo_factory_test_32k_start_time : Int)))
            (s64_wrap ((steelhead_get_raw_counter counter_timer hw_counter s.counter).1
              - s.test.vcxo_factory_test_38400k_start_time)) with
        | none => none
        | some m => some (test_read_finish (factory_test_text (some m)) count copy_fault
            ⟨(steelhead_get_raw_counter counter_timer hw_counter s.counter).2,
              { s.test with vcxo_factory_test_in_progress := 0 }⟩) := by
  unfold vcxo_debugfs_test_read
  simp only [ne_eq, not_true_eq_false, if_false, h, not_false_eq_true, if_true]

/-- A read with no test in progress, on a freshly opened file. -/
theorem vcxo_debugfs_test_read_idle (count : Nat) (copy_fault : Bool) (reg_32k : Nat)
    (counter_timer : timer_ptr) (hw_counter : Nat) (s : diag_state)
    (h : s.test.vcxo_factory_test_in_progress = 0) :
    vcxo_debugfs_test_read 0 count copy_fault reg_32k counter_timer hw_counter s
      = some (test_read_finish (factory_test_text none) count copy_fault
          ⟨s.counter, { s.test with vcxo_factory_test_in_progress := 0 }⟩) := by
  unfold vcxo_debugfs_test_read
  simp only [ne_eq, not_true_eq_false, if_false, h]

/-- The report of a finished test is never the text of a test that was not
started: they differ at their eighteenth character. -/
theorem factory_test_text_take_ne (m : Int × Int × Int) :
    (factory_test_text (some m)).take 511 ≠ ("VCXO Factory Test was not started.\n").data := by
  obtain ⟨a, b, c⟩ := m
  intro h
  have h18 := congrArg (List.take 18) h
  have hlen : (("VCXO Factory Test\n").data).length = 18 := by rfl
  have hq : List.take 18 (("VCXO Factory Test was not started.\n").data)
      = ("VCXO Factory Test ").data := by rfl
  rw [List.take_take, hq] at h18
  simp only [factory_test_text, List.append_assoc] at h18
  rw [show min 18 511 = 18 from rfl, List.take_left' hlen] at h18
  revert h18
  decide

/-- Serving one more request after a sequence. -/
theorem run_test_requests_append (counter_timer : timer_ptr) (req : test_request) :
    ∀ (pre : List test_request) (s0 : diag_state),
      run_test_requests counter_timer s0 (pre ++ [req])
        = match run_test_requests counter_timer s0 pre with
          | none => none
          | some s1 => run_test_requests counter_timer s1 [req] := by
  intro pre
  induction pre with
  | nil => intro s0; rfl
  | cons r rest ih =>
    intro s0
    cases r with
    | start c n h =>
      simp only [List.cons_append, run_test_requests]
      exact ih _
    | read c f n h =>
      simp only [List.cons_append, run_test_requests]
      cases vcxo_debugfs_test_read vcxo_debugfs_test_open c f n counter_timer h s0 with
      | none => rfl
      | some r => exact ih _

/-- Every defined read on a freshly opened file leaves no test in progress. -/
theorem vcxo_debugfs_test_read_clears (count : Nat) (copy_fault : Bool) (reg_32k : Nat)
    (counter_timer : timer_ptr) (hw_counter : Nat) (s : diag_state) (r : test_read_result)
    (h : vcxo_debugfs_test_read 0 count copy_fault reg_32k counter_timer hw_counter s = some r) :
    r.state.test.vcxo_factory_test_in_progress = 0 := by
  by_cases harmed : s.test.vcxo_factory_test_in_progress = 0
  · rw [vcxo_debugfs_test_read_idle _ _ _ _ _ _ harmed] at h
    cases h
    rw [(test_read_finish_fields _ _ _ _).2.1]
  · rw [vcxo_debugfs_test_read_armed _ _ _ _ _ _ harmed] at h
    split at h
    · exact Option.noConfusion h
    · cases h
      rw [(test_read_finish_fields _ _ _ _).2.1]

/-- After a sequence of requests from a state with no test in progress, a test
is in progress exactly when the last request was a start, and then the start
values are those recorded by that start. -/
theorem run_test_requests_last (counter_timer : timer_ptr) (s0 : diag_state)
    (h0 : s0.test.vcxo_factory_test_in_progress = 0) (pre : List test_request)
    (s : diag_state) (hrun : run_test_requests counter_timer s0 pre = some s) :
    ((∀ c n h, pre.getLast? ≠ some (test_request.start c n h)) →
      s.test.vcxo_factory_test_in_progress = 0) ∧
    (∀ pre0 c n h, pre = pre0 ++ [test_request.start c n h] →
      ∃ s1, run_test_requests counter_timer s0 pre0 = some s1 ∧
        s = (vcxo_debugfs_test_write c n counter_timer h s1).2) := by
  rcases List.eq_nil_or_concat pre with hnil | ⟨pre1, req, hcat⟩
  · subst hnil
    cases hrun
    refine ⟨fun _ => h0, ?_⟩
    intro pre0 c n h hp
    simp at hp
  · rw [List.concat_eq_append] at hcat
    subst hcat
    rw [run_test_requests_append] at hrun
    cases hpre : run_test_requests counter_timer s0 pre1 with
    | none => rw [hpre] at hrun; exact Option.noConfusion hrun
    | some s1 =>
      rw [hpre] at hrun
      cases req with
      | start c n h =>
        simp only [run_test_requests] at hrun
        cases hrun
        constructor
        · intro hno
          exact absurd (List.getLast?_concat pre1) (hno c n h)
        · intro pre0 c2 n2 h2 hp
          obtain ⟨hp1, hp2⟩ := List.append_inj' hp rfl
          subst hp1
          cases hp2
          exact ⟨s1, hpre, rfl⟩
      | read c f n h =>
        simp only [run_test_requests] at hrun
        cases hread : vcxo_debugfs_test_read vcxo_debugfs_test_open c f n counter_timer h s1 with
        | none => rw [hread] at hrun; exact Option.noConfusion hrun
        | some r =>
          rw [hread] at hrun
          cases hrun
          constructor
          · intro _
            exact vcxo_debugfs_test_read_clears c f n counter_timer h s1 r hread
          · intro pre0 c2 n2 h2 hp
            obtain ⟨_, hp2⟩ := List.append_inj' hp rfl
            cases hp2

/-- The ppm arithmetic where it goes right: when the elapsed reference time
`usec32` is not zero and fits in 32 bits, so that the cast of the divisor to
`uint32_t` changes nothing, and no 64-bit product overflows, the value printed
is `(usec38 - usec32) * 1000000 / usec32`, the magnitude divided with
truncation and the sign restored. -/
theorem factory_test_ppm_in_range (d32 d38 usec32 usec38 : Nat)
    (hd32 : d32 < 2 ^ 32) (hd38 : d38 * 10 < 2 ^ 63)
    (hu32 : usec32 = d32 * 1000000 / 32768) (hu38 : usec38 = d38 * 1000000 / 38400000)
    (hpos : usec32 ≠ 0) (hfit : usec32 < 2 ^ 32)
    (hlo : -2 ^ 63 < ((usec38 : Int) - (usec32 : Int)) * 1000000)
    (hhi : ((usec38 : Int) - (usec32 : Int)) * 1000000 < 2 ^ 63) :
    factory_test_result d32 (d38 : Int)
      = some ((usec32 : Int), (usec38 : Int),
          if ((usec38 : Int) - (usec32 : Int)) * 1000000 < 0
          then -(-(((usec38 : Int) - (usec32 : Int)) * 1000000) / (usec32 : Int))
          else ((usec38 : Int) - (usec32 : Int)) * 1000000 / (usec32 : Int)) ∧
    (if ((usec38 : Int) - (usec32 : Int)) * 1000000 < 0
      then -(-(((usec38 : Int) - (usec32 : Int)) * 1000000) / (usec32 : Int))
      else ((usec38 : Int) - (usec32 : Int)) * 1000000 / (usec32 : Int))
      = Int.tdiv (((usec38 : Int) - (usec32 : Int)) * 1000000) (usec32 : Int) ∧
    (∀ (count : Nat) (copy_fault : Bool) (reg_32k : Nat) (counter_timer : timer_ptr)
        (hw_counter : Nat) (s : diag_state),
      s.test.vcxo_factory_test_in_progress ≠ 0 →
      u32_of_int ((vcxo_debugfs_read_32k reg_32k : Int)
        - (s.test.vcxo_factory_test_32k_start_time : Int)) = d32 →
      s64_wrap ((steelhead_get_raw_counter counter_timer hw_counter s.counter).1
        - s.test.vcxo_factory_test_38400k_start_time) = (d38 : Int) →
      ∃ r, vcxo_debugfs_test_read 0 count copy_fault reg_32k counter_timer hw_counter s
          = some r ∧
        r.buf = (factory_test_text (some ((usec32 : Int), (usec38 : Int),
          Int.tdiv (((usec38 : Int) - (usec32 : Int)) * 1000000) (usec32 : Int)))).take 511) := by
  have e32 : d32 * 15625 / 512 = usec32 := by omega
  have e38 : d38 * 10 / 384 = usec38 := by omega
  have hu : u32_of_int (usec32 : Int) = usec32 := by
    unfold u32_of_int
    norm_num at hfit ⊢
    omega
  have hupos : (0 : Int) < (usec32 : Int) := by omega
  have hdiff : s64_wrap ((usec38 : Int) - (usec32 : Int)) = (usec38 : Int) - (usec32 : Int) := by
    apply s64_wrap_of_range <;> omega
  have hnum : s64_wrap (((usec38 : Int) - (usec32 : Int)) * 1000000)
      = ((usec38 : Int) - (usec32 : Int)) * 1000000 := by
    apply s64_wrap_of_range <;> omega
  have hres : factory_test_result d32 (d38 : Int)
      = some ((usec32 : Int), (usec38 : Int),
          if ((usec38 : Int) - (usec32 : Int)) * 1000000 < 0
          then -(-(((usec38 : Int) - (usec32 : Int)) * 1000000) / (usec32 : Int))
          else ((usec38 : Int) - (usec32 : Int)) * 1000000 / (usec32 : Int)) := by
    rw [factory_test_result_eq d32 d38 hd32 hd38, e32, e38, hdiff, hnum, hu]
    generalize ((usec38 : Int) - (usec32 : Int)) * 1000000 = num at hlo hhi ⊢
    by_cases hneg : num < 0
    · have hwrap : s64_wrap (-num) = -num := by apply s64_wrap_of_range <;> omega
      have hq0 : 0 ≤ -num / (usec32 : Int) := Int.ediv_nonneg (by omega) (by omega)
      have hq1 : -num / (usec32 : Int) ≤ -num := Int.ediv_le_self _ (by omega)
      have hwq : s64_wrap (-(-num / (usec32 : Int))) = -(-num / (usec32 : Int)) := by
        apply s64_wrap_of_range <;> omega
      rw [if_pos hneg, if_pos hneg, hwrap,
        do_div_s64_of_nonneg (-num) usec32 (by omega) (by omega) (by omega) hfit]
      simp only [hwq]
    · rw [if_neg hneg, if_neg hneg,
        do_div_s64_of_nonneg num usec32 (by omega) hhi (by omega) hfit]
  have htdiv : (if ((usec38 : Int) - (usec32 : Int)) * 1000000 < 0
      then -(-(((usec38 : Int) - (usec32 : Int)) * 1000000) / (usec32 : Int))
      else ((usec38 : Int) - (usec32 : Int)) * 1000000 / (usec32 : Int))
      = Int.tdiv (((usec38 : Int) - (usec32 : Int)) * 1000000) (usec32 : Int) := by
    generalize ((usec38 : Int) - (usec32 : Int)) * 1000000 = num
    by_cases hneg : num < 0
    · rw [if_pos hneg]
      have h1 : Int.tdiv num (usec32 : Int) = -(Int.tdiv (-num) (usec32 : Int)) := by
        rw [Int.neg_tdiv, Int.neg_neg]
      rw [h1, Int.tdiv_eq_ediv (by omega) (by omega)]
    · rw [if_neg hneg, Int.tdiv_eq_ediv (by omega) (by omega)]
  refine ⟨hres, htdiv, ?_⟩
  intro count copy_fault reg_32k counter_timer hw_counter s harmed h32 h38
  rw [vcxo_debugfs_test_read_armed count copy_fault reg_32k counter_timer hw_counter s harmed,
    h32, h38, hres, htdiv]
  exact ⟨_, rfl, (test_read_finish_fields _ _ _ _).1⟩

/-! ## Claims about the counter extension -/

/-- C1 (counterexample): the true counts `0x70000000, 0x160000000` are
non-decreasing, below `2^63` and less than `2^32` apart, yet from the zero
state the calls on their low words return `0x70000000` and then `0x60000000`,
which is a decrease. -/
theorem C1_monotone_counterexample :
    List.Chain' (fun a b : Nat => a ≤ b ∧ b - a < 2 ^ 32) [0x70000000, 0x160000000] ∧
    (∀ c ∈ [0x70000000, 0x160000000], c < 2 ^ 63) ∧
    (feed_samples counter_state_init
        ([0x70000000, 0x160000000].map (fun c => c % 2 ^ 32))).map Prod.fst
      = [0x70000000, 0x60000000] ∧
    ¬ List.Sorted (fun a b : Int => a ≤ b)
        ((feed_samples counter_state_init
          ([0x70000000, 0x160000000].map (fun c => c % 2 ^ 32))).map Prod.fst) := by
  refine ⟨by simp, by decide, by decide, by decide⟩

/-- C1 (amended): for every finite non-decreasing sequence of true counts
below `2^63` in which consecutive counts differ by at most `2^31` (half the
period of the low word), feeding the low 32 bits of each count in order to
`get_counter_internal_l`, starting from the zero-initialised state, returns a
non-decreasing sequence of signed 64-bit values. -/
theorem C1_monotone_within_half_period (cs : List Nat)
    (hchain : List.Chain' (fun a b : Nat => a ≤ b ∧ b - a ≤ 2 ^ 31) cs)
    (hbound : ∀ c ∈ cs, c < 2 ^ 63) :
    List.Sorted (fun a b : Int => a ≤ b)
      ((feed_samples counter_state_init (cs.map (fun c => c % 2 ^ 32))).map Prod.fst) := by
  cases cs with
  | nil => simp [feed_samples]
  | cons c0 rest =>
    have hl0 : c0 % 2 ^ 32 < 2 ^ 32 := Nat.mod_lt _ (by norm_num)
    have hno : rollover_detected ⟨0, 0⟩ (c0 % 2 ^ 32) = false :=
      rollover_detected_of_le ⟨0, 0⟩ (c0 % 2 ^ 32) (Nat.zero_le _) hl0
    have hc0 : c0 < 2 ^ 63 := hbound c0 (List.mem_cons_self _ _)
    have hfirst : get_counter_internal_l counter_state_init (c0 % 2 ^ 32)
        = (((c0 - c0 / 2 ^ 32 * 2 ^ 32 : Nat) : Int), ⟨0, c0 % 2 ^ 32⟩) := by
      unfold get_counter_internal_l
      simp only [hno, counter_state_init, Bool.false_eq_true, if_false]
      rw [shiftLeft_32_or _ _ hl0, s64_of_bits_of_lt]
      · congr 2
        norm_num
        omega
      · norm_num at hc0 ⊢
        omega
    have htail := feed_samples_tracks (c0 / 2 ^ 32) rest 0 c0 (by omega) hchain
      (fun x hx => hbound x (List.mem_cons_of_mem _ hx))
    have hout : (feed_samples counter_state_init
          ((c0 :: rest).map (fun c => c % 2 ^ 32))).map Prod.fst
        = (c0 :: rest).map (fun x => ((x - c0 / 2 ^ 32 * 2 ^ 32 : Nat) : Int)) := by
      simp only [List.map_cons, feed_samples, hfirst, htail, List.map_map]
      rfl
    rw [hout]
    have hle : List.Chain' (fun a b : Nat => a ≤ b) (c0 :: rest) :=
      hchain.imp (fun _ _ h => h.1)
    have hpair : List.Pairwise (fun a b : Nat => a ≤ b) (c0 :: rest) :=
      List.chain'_iff_pairwise.1 hle
    exact List.Pairwise.map _ (fun a b hab => by
      show ((a - c0 / 2 ^ 32 * 2 ^ 32 : Nat) : Int) ≤ ((b - c0 / 2 ^ 32 * 2 ^ 32 : Nat) : Int)
      exact Int.ofNat_le.2 (Nat.sub_le_sub_right hab _)) hpair

/-- C1 (witness): the counts `0x70000000, 0xF0000000, 0x160000000` advance by
`2^31` or less and their extended values come out in order. -/
theorem C1_monotone_within_half_period_witness :
    List.Chain' (fun a b : Nat => a ≤ b ∧ b - a ≤ 2 ^ 31)
        [0x70000000, 0xF0000000, 0x160000000] ∧
    (∀ c ∈ [0x70000000, 0xF0000000, 0x160000000], c < 2 ^ 63) ∧
    List.Sorted (fun a b : Int => a ≤ b)
      ((feed_samples counter_state_init
        ([0x70000000, 0xF0000000, 0x160000000].map (fun c => c % 2 ^ 32))).map Prod.fst) :=
  ⟨by simp, by decide,
    C1_monotone_within_half_period [0x70000000, 0xF0000000, 0x160000000]
      (by simp) (by decide)⟩

/-- C2: from a state whose `(upper << 32) | lower_last` is the previous true
count `c0`, along any sequence of true counts below `2^63` that starts from
`c0` and advances by between `0` and `2^30` ticks each time, every call of
`get_counter_internal_l` on the low 32 bits of the current true count returns
exactly that count, and afterwards `(upper << 32) | lower_last` equals it. -/
theorem C2_exact_reconstruction (state : counter_state) (c0 : Nat) (cs : List Nat)
    (hupper : state.upper < 2 ^ 32) (hlower : state.lower_last < 2 ^ 32)
    (hval : state_value state = c0)
    (hchain : List.Chain (fun a b : Nat => a ≤ b ∧ b - a ≤ 2 ^ 30) c0 cs)
    (hbound : ∀ c ∈ cs, c < 2 ^ 63) :
    (feed_samples state (cs.map (fun c => c % 2 ^ 32))).map
        (fun r => (r.1, state_value r.2))
      = cs.map (fun c : Nat => ((c : Int), c)) := by
  obtain ⟨u, l⟩ := state
  simp only at hupper hlower
  have hc0 : c0 = u * 2 ^ 32 + l := by
    rw [← hval]; exact shiftLeft_32_or u l hlower
  have hmod : c0 % 2 ^ 32 = l := by omega
  have hdiv : c0 / 2 ^ 32 = u + 0 := by omega
  have hchain' : List.Chain (fun a b : Nat => a ≤ b ∧ b - a ≤ 2 ^ 31) c0 cs :=
    hchain.imp (fun _ _ h => ⟨h.1, by omega⟩)
  have h := feed_samples_tracks 0 cs u c0 hdiv hchain' hbound
  rw [hmod] at h
  rw [h, List.map_map]
  apply List.map_congr_left
  intro x _
  simp only [Function.comp, Nat.zero_mul, Nat.sub_zero, state_value_div_mod]

/-- C2 (witness): from the zero state and true count 0, five advances of
`2^30` ticks or less, the fourth of which carries into the upper word. -/
theorem C2_exact_reconstruction_witness :
    state_value counter_state_init = 0 ∧
    List.Chain (fun a b : Nat => a ≤ b ∧ b - a ≤ 2 ^ 30) 0
        [0x40000000, 0x80000000, 0xC0000000, 0x100000000, 0x100000001] ∧
    (feed_samples counter_state_init
        ([0x40000000, 0x80000000, 0xC0000000, 0x100000000, 0x100000001].map
          (fun c => c % 2 ^ 32))).map (fun r => (r.1, state_value r.2))
      = [0x40000000, 0x80000000, 0xC0000000, 0x100000000, 0x100000001].map
          (fun c : Nat => ((c : Int), c)) :=
  ⟨by decide, by simp,
    C2_exact_reconstruction counter_state_init 0
      [0x40000000, 0x80000000, 0xC0000000, 0x100000000, 0x100000001]
      (by decide) (by decide) (by decide) (by simp) (by decide)⟩

/-- C3: one call of `get_counter_internal_l` on a 32-bit sample sets `upper`
to `upper + 1` modulo `2^32` exactly when bit 31 of `lower_last` is set and
bit 31 of the sample is clear and otherwise leaves it unchanged, sets
`lower_last` to the sample, and returns the 64-bit value whose high word is the
new `upper` and whose low word is the sample.  In particular a sample with bit
31 set followed by one with bit 31 clear raises the upper half of the result
by one (modulo `2^32`) and the low half is the second sample; from the zero
state `0xFFFFFFF0, 0x00000010` gives upper halves 0 and then 1. -/
theorem C3_one_step_behaviour (state : counter_state) (lower : Nat)
    (hupper : state.upper < 2 ^ 32) (hlower : lower < 2 ^ 32) :
    ((get_counter_internal_l state lower).2.upper = (state.upper + 1) % 2 ^ 32
      ↔ (state.lower_last.testBit 31 = true ∧ lower.testBit 31 = false)) ∧
    (¬ (state.lower_last.testBit 31 = true ∧ lower.testBit 31 = false)
      → (get_counter_internal_l state lower).2.upper = state.upper) ∧
    (get_counter_internal_l state lower).2.lower_last = lower ∧
    u64_of_int (get_counter_internal_l state lower).1 / 2 ^ 32
      = (get_counter_internal_l state lower).2.upper ∧
    u64_of_int (get_counter_internal_l state lower).1 % 2 ^ 32 = lower ∧
    (∀ a b : Nat, a < 2 ^ 32 → b < 2 ^ 32 → a.testBit 31 = true → b.testBit 31 = false →
      u64_of_int (get_counter_internal_l (get_counter_internal_l state a).2 b).1 / 2 ^ 32
        = (u64_of_int (get_counter_internal_l state a).1 / 2 ^ 32 + 1) % 2 ^ 32 ∧
      u64_of_int (get_counter_internal_l (get_counter_internal_l state a).2 b).1 % 2 ^ 32
        = b) ∧
    feed_samples counter_state_init [0xFFFFFFF0, 0x00000010]
      = [(0xFFFFFFF0, ⟨0, 0xFFFFFFF0⟩), (0x100000010, ⟨1, 0x00000010⟩)] := by
  have hstep : ∀ (st : counter_state) (x : Nat),
      (get_counter_internal_l st x).2.upper
        = (if st.lower_last.testBit 31 = true ∧ x.testBit 31 = false
            then (st.upper + 1) % 2 ^ 32 else st.upper) ∧
      (get_counter_internal_l st x).2.lower_last = x := by
    intro st x
    have hr := rollover_detected_eq st x
    unfold get_counter_internal_l
    simp only [hr, Bool.and_eq_true, Bool.not_eq_true', and_true]
  have hhigh : ∀ (st : counter_state) (x : Nat), st.upper < 2 ^ 32 → x < 2 ^ 32 →
      u64_of_int (get_counter_internal_l st x).1 / 2 ^ 32
          = (get_counter_internal_l st x).2.upper ∧
        u64_of_int (get_counter_internal_l st x).1 % 2 ^ 32 = x := by
    intro st x hu hx
    obtain ⟨hbits, hlt⟩ := get_counter_internal_l_bits st x hu hx
    rw [hbits]
    norm_num at hx hlt ⊢
    omega
  refine ⟨?_, ?_, (hstep state lower).2, (hhigh state lower hupper hlower).1,
    (hhigh state lower hupper hlower).2, ?_, by decide⟩
  · rw [(hstep state lower).1]
    by_cases hc : state.lower_last.testBit 31 = true ∧ lower.testBit 31 = false
    · simp [hc]
    · simp only [hc, if_false, iff_false]
      norm_num at hupper ⊢
      omega
  · intro hc
    rw [(hstep state lower).1, if_neg hc]
  · intro a b ha hb hba hbb
    have hu1 : (get_counter_internal_l state a).2.upper < 2 ^ 32 :=
      (get_counter_internal_l_bits state a hupper ha).2
    have h1 := hhigh state a hupper ha
    have h2 := hhigh (get_counter_internal_l state a).2 b hu1 hb
    have hs2 := (hstep (get_counter_internal_l state a).2 b).1
    rw [(hstep state a).2, if_pos ⟨hba, hbb⟩] at hs2
    rw [h2.1, h2.2, h1.1, hs2]
    exact ⟨rfl, rfl⟩

/-- C3 (witness): the zero state and the sample `0xFFFFFFF0`. -/
theorem C3_one_step_behaviour_witness :
    (counter_state_init.upper < 2 ^ 32 ∧ (0xFFFFFFF0 : Nat) < 2 ^ 32) ∧
    (get_counter_internal_l counter_state_init 0xFFFFFFF0).2.lower_last = 0xFFFFFFF0 ∧
    u64_of_int (get_counter_internal_l counter_state_init 0xFFFFFFF0).1 / 2 ^ 32
      = (get_counter_internal_l counter_state_init 0xFFFFFFF0).2.upper ∧
    u64_of_int (get_counter_internal_l counter_state_init 0xFFFFFFF0).1 % 2 ^ 32
      = 0xFFFFFFF0 :=
  ⟨by decide,
    (C3_one_step_behaviour counter_state_init 0xFFFFFFF0 (by decide) (by decide)).2.2.1,
    (C3_one_step_behaviour counter_state_init 0xFFFFFFF0 (by decide) (by decide)).2.2.2.1,
    (C3_one_step_behaviour counter_state_init 0xFFFFFFF0 (by decide) (by decide)).2.2.2.2.1⟩

/-- C4: feeding a strictly increasing sequence of 32-bit samples, from a state
whose `lower_last` is not greater than the first sample, never increments
`upper`: after every call `upper` equals its initial value. -/
theorem C4_no_false_wrap (state : counter_state) (xs : List Nat)
    (hinc : List.Chain' (fun a b : Nat => a < b) xs)
    (hfirst : ∀ x ∈ xs.head?, state.lower_last ≤ x)
    (hbound : ∀ x ∈ xs, x < 2 ^ 32) :
    ∀ r ∈ feed_samples state xs, r.2.upper = state.upper := by
  cases xs with
  | nil => intro r hr; simp [feed_samples] at hr
  | cons x rest =>
    have h0 : state.lower_last ≤ x := hfirst x (by simp)
    have hrest : List.Chain (fun a b : Nat => a ≤ b) x rest :=
      List.Chain.imp (fun _ _ h => Nat.le_of_lt h) hinc
    exact feed_samples_upper_of_chain_le (x :: rest) state
      (List.chain_cons.2 ⟨h0, hrest⟩) hbound

/-- C4 (witness): the samples `100, 200, 300` from the zero state. -/
theorem C4_no_false_wrap_witness :
    List.Chain' (fun a b : Nat => a < b) [100, 200, 300] ∧
    (∀ r ∈ feed_samples counter_state_init [100, 200, 300], r.2.upper = 0) :=
  ⟨by simp,
    C4_no_false_wrap counter_state_init [100, 200, 300] (by simp)
      (by simp [counter_state_init]) (by decide)⟩

/-! ## Claims about the VCXO PWM controller -/

/-- C5: with the PWM timer present, rate `-32768` gives match position 0 and
takes the always-off path (the only writes are to CTRL, the last one with
GPOCFG and SCPWM clear); rate `32767` gives
`match_pos + VCXO_TIMER_START >= 0xFFFFFFFE` and takes the always-on path (the
last write sets SCPWM); rate `0` gives match position `512 =
VCXO_CYCLE_TICKS / 2` and takes the variable-duty path (LOAD, MATCH and
COUNTER are programmed and the timer restarted). -/
theorem C5_pwm_mapping_boundaries (t : omap_dm_timer) (last : Int) :
    (match_pos (-32768) = 0 ∧
      steelhead_set_vcxo_rate (-32768) ⟨some t, last⟩
        = (⟨some { t with ctrl := (t.ctrl &&& not32 TIMER_CTRL_ST)
                    &&& not32 (TIMER_CTRL_GPOCFG ||| TIMER_CTRL_SCPWM) }, -32768⟩,
           [reg_access.read TIMER_CTRL_OFFSET,
            reg_access.write TIMER_CTRL_OFFSET (t.ctrl &&& not32 TIMER_CTRL_ST),
            reg_access.write TIMER_CTRL_OFFSET ((t.ctrl &&& not32 TIMER_CTRL_ST)
              &&& not32 (TIMER_CTRL_GPOCFG ||| TIMER_CTRL_SCPWM))])) ∧
    (match_pos 32767 ≠ 0 ∧
      0xFFFFFFFE ≤ (match_pos 32767 + VCXO_TIMER_START) % 2 ^ 32 ∧
      match_pos 32767 + VCXO_TIMER_START = 0xFFFFFFFE ∧
      steelhead_set_vcxo_rate 32767 ⟨some t, last⟩
        = (⟨some { t with ctrl := (t.ctrl &&& not32 TIMER_CTRL_ST)
                    &&& not32 TIMER_CTRL_GPOCFG ||| TIMER_CTRL_SCPWM }, 32767⟩,
           [reg_access.read TIMER_CTRL_OFFSET,
            reg_access.write TIMER_CTRL_OFFSET (t.ctrl &&& not32 TIMER_CTRL_ST),
            reg_access.write TIMER_CTRL_OFFSET ((t.ctrl &&& not32 TIMER_CTRL_ST)
              &&& not32 TIMER_CTRL_GPOCFG ||| TIMER_CTRL_SCPWM)])) ∧
    (match_pos 0 = 512 ∧ match_pos 0 = VCXO_CYCLE_TICKS / 2 ∧
      ¬ 0xFFFFFFFE ≤ (match_pos 0 + VCXO_TIMER_START) % 2 ^ 32 ∧
      steelhead_set_vcxo_rate 0 ⟨some t, last⟩
        = (⟨some { ctrl := (t.ctrl &&& not32 TIMER_CTRL_ST)
                    &&& not32 (TIMER_CTRL_GPOCFG ||| TIMER_CTRL_SCPWM
                          ||| TIMER_CTRL_TRIG_MASK)
                    ||| (TIMER_CTRL_CE ||| TIMER_CTRL_AR ||| TIMER_CTRL_ST
                          ||| TIMER_CTRL_PT ||| TIMER_CTRL_TRIG_OVFL_MATCH),
                   load := 0xFFFFFBFF, match_reg := 0xFFFFFDFF, counter := 0xFFFFFFFD }, 0⟩,
           [reg_access.read TIMER_CTRL_OFFSET,
            reg_access.write TIMER_CTRL_OFFSET (t.ctrl &&& not32 TIMER_CTRL_ST),
            reg_access.write TIMER_LOAD_OFFSET 0xFFFFFBFF,
            reg_access.write TIMER_MATCH_OFFSET 0xFFFFFDFF,
            reg_access.write TIMER_COUNTER_OFFSET 0xFFFFFFFD,
            reg_access.write TIMER_CTRL_OFFSET ((t.ctrl &&& not32 TIMER_CTRL_ST)
              &&& not32 (TIMER_CTRL_GPOCFG ||| TIMER_CTRL_SCPWM ||| TIMER_CTRL_TRIG_MASK)
              ||| (TIMER_CTRL_CE ||| TIMER_CTRL_AR ||| TIMER_CTRL_ST ||| TIMER_CTRL_PT
                    ||| TIMER_CTRL_TRIG_OVFL_MATCH))])) := by
  have hmin : match_pos (-32768) = 0 := by decide
  have hmax0 : match_pos 32767 ≠ 0 := by decide
  have hmax : 0xFFFFFFFE ≤ (match_pos 32767 + VCXO_TIMER_START) % 2 ^ 32 := by decide
  have hmid0 : match_pos 0 ≠ 0 := by decide
  have hmid : ¬ 0xFFFFFFFE ≤ (match_pos 0 + VCXO_TIMER_START) % 2 ^ 32 := by decide
  have hm : (match_pos 0 + VCXO_TIMER_START) % 2 ^ 32 = 0xFFFFFDFF := by decide
  have hs : VCXO_TIMER_START = 0xFFFFFBFF := by decide
  refine ⟨⟨hmin, set_vcxo_rate_always_off (-32768) t last hmin⟩,
    ⟨hmax0, hmax, by decide, set_vcxo_rate_always_on 32767 t last hmax0 hmax⟩,
    ⟨by decide, by decide, hmid, ?_⟩⟩
  rw [set_vcxo_rate_variable 0 t last hmid0 hmid, hm, hs]

/-- C6 (counterexample): no signed 16-bit rate has match position
`VCXO_CYCLE_TICKS = 1024`, so the values taken are not the whole of
`[0, 1024]`. -/
theorem C6_range_counterexample :
    VCXO_CYCLE_TICKS = 1024 ∧
    ¬ ∃ rate : Int, -32768 ≤ rate ∧ rate ≤ 32767 ∧ match_pos rate = VCXO_CYCLE_TICKS := by
  refine ⟨rfl, ?_⟩
  rintro ⟨rate, hlo, hhi, h⟩
  rw [match_pos_eq rate hlo hhi] at h
  unfold VCXO_CYCLE_TICKS at h
  omega

/-- C6 (amended): for every signed 16-bit rate the match position computed in
32-bit unsigned arithmetic equals `floor((rate + 32768) * 1024 / 65536)` with
no 32-bit overflow in the multiplication, is non-decreasing in the rate, and
the values taken over the whole signed 16-bit range are the interval
`[0, VCXO_CYCLE_TICKS - 1] = [0, 1023]`. -/
theorem C6_linear_rate_mapping (rate : Int) (hlo : -32768 ≤ rate) (hhi : rate ≤ 32767) :
    u32_of_int (rate + 0x8000) * VCXO_CYCLE_TICKS < 2 ^ 32 ∧
    (match_pos rate : Int) = Int.fdiv ((rate + 32768) * 1024) 65536 ∧
    (∀ rate2 : Int, rate ≤ rate2 → rate2 ≤ 32767 → match_pos rate ≤ match_pos rate2) ∧
    Set.image match_pos (Set.Icc (-32768) 32767) = Set.Icc 0 (VCXO_CYCLE_TICKS - 1) ∧
    VCXO_CYCLE_TICKS - 1 = 1023 := by
  refine ⟨?_, ?_, ?_, ?_, rfl⟩
  · unfold u32_of_int VCXO_CYCLE_TICKS
    norm_num
    omega
  · rw [match_pos_eq rate hlo hhi]
    have hnum : (0 : Int) ≤ (rate + 32768) * 1024 := by omega
    rw [Int.fdiv_eq_ediv _ (by norm_num : (0 : Int) ≤ 65536)]
    omega
  · intro rate2 h1 h2
    rw [match_pos_eq rate hlo hhi, match_pos_eq rate2 (by omega) h2]
    omega
  · ext m
    simp only [Set.mem_image, Set.mem_Icc]
    unfold VCXO_CYCLE_TICKS
    constructor
    · rintro ⟨r, ⟨h1, h2⟩, rfl⟩
      rw [match_pos_eq r h1 h2]
      omega
    · rintro ⟨_, hm⟩
      refine ⟨(m : Int) * 64 - 32768, ⟨by omega, by omega⟩, ?_⟩
      rw [match_pos_eq _ (by omega) (by omega)]
      omega

/-- C6 (witness): the rate 0. -/
theorem C6_linear_rate_mapping_witness :
    ((-32768 : Int) ≤ 0 ∧ (0 : Int) ≤ 32767) ∧
    (match_pos 0 : Int) = Int.fdiv ((0 + 32768) * 1024) 65536 :=
  ⟨by decide, (C6_linear_rate_mapping 0 (by decide) (by decide)).2.1⟩

/-- C7: with the PWM timer present, for every signed 16-bit rate and every
prior register state, calling `steelhead_set_vcxo_rate rate` twice in a row
leaves the same registers and the same `vcxo_last_rate` as calling it once,
and `vcxo_last_rate` equals the rate. -/
theorem C7_rate_set_idempotent (rate : Int) (_hlo : -32768 ≤ rate) (_hhi : rate ≤ 32767)
    (t : omap_dm_timer) (last : Int) :
    (steelhead_set_vcxo_rate rate (steelhead_set_vcxo_rate rate ⟨some t, last⟩).1).1
      = (steelhead_set_vcxo_rate rate ⟨some t, last⟩).1 ∧
    (steelhead_set_vcxo_rate rate ⟨some t, last⟩).1.vcxo_last_rate = rate := by
  refine ⟨?_, set_vcxo_rate_last_rate rate t last⟩
  by_cases h0 : match_pos rate = 0
  · rw [set_vcxo_rate_always_off rate t last h0]
    simp only
    rw [set_vcxo_rate_always_off rate _ rate h0]
    simp only [and_and_idem]
  · by_cases h : 0xFFFFFFFE ≤ (match_pos rate + VCXO_TIMER_START) % 2 ^ 32
    · rw [set_vcxo_rate_always_on rate t last h0 h]
      simp only
      rw [set_vcxo_rate_always_on rate _ rate h0 h]
      simp only [and_and_or_idem]
    · rw [set_vcxo_rate_variable rate t last h0 h]
      simp only
      rw [set_vcxo_rate_variable rate _ rate h0 h]
      simp only [and_and_or_idem]

/-- C7 (witness): rate 100 on a timer whose registers hold arbitrary values. -/
theorem C7_rate_set_idempotent_witness :
    ((-32768 : Int) ≤ 100 ∧ (100 : Int) ≤ 32767) ∧
    (steelhead_set_vcxo_rate 100
        (steelhead_set_vcxo_rate 100 ⟨some ⟨0xFFFFFFFF, 1, 2, 3⟩, 7⟩).1).1
      = (steelhead_set_vcxo_rate 100 ⟨some ⟨0xFFFFFFFF, 1, 2, 3⟩, 7⟩).1 ∧
    (steelhead_set_vcxo_rate 100 ⟨some ⟨0xFFFFFFFF, 1, 2, 3⟩, 7⟩).1.vcxo_last_rate = 100 :=
  ⟨by decide, C7_rate_set_idempotent 100 (by decide) (by decide) ⟨0xFFFFFFFF, 1, 2, 3⟩ 7⟩

/-- C8: when the PWM timer was never acquired (`vcxo_pwm_timer` is `NULL`),
for every rate `steelhead_set_vcxo_rate` makes no register access and leaves
the whole state, `vcxo_last_rate` included, unchanged; and a
`steelhead_setup_vcxo_control` whose timer request failed leaves exactly such a
state, makes no register access and returns -1. -/
theorem C8_rate_set_noop_without_timer (rate : Int) (s : vcxo_state) (requested : timer_ptr)
    (hnull : s.vcxo_pwm_timer = none) (hfail : IS_ERR_OR_NULL requested = true) :
    steelhead_set_vcxo_rate rate s = (s, []) ∧
    (∀ s0 : vcxo_state,
      (steelhead_setup_vcxo_control requested s0).1
          = ⟨none, s0.vcxo_last_rate⟩ ∧
        (steelhead_setup_vcxo_control requested s0).2 = ([], -1) ∧
        steelhead_set_vcxo_rate rate (steelhead_setup_vcxo_control requested s0).1
          = ((steelhead_setup_vcxo_control requested s0).1, [])) := by
  constructor
  · obtain ⟨tm, last⟩ := s
    simp only at hnull
    subst hnull
    rfl
  · intro s0
    cases requested with
    | null => exact ⟨rfl, rfl, rfl⟩
    | err e => exact ⟨rfl, rfl, rfl⟩
    | valid t => simp [IS_ERR_OR_NULL] at hfail

/-- C8 (witness): rate 1234 with no timer, and a request that returned `NULL`. -/
theorem C8_rate_set_noop_without_timer_witness :
    IS_ERR_OR_NULL timer_ptr.null = true ∧
    steelhead_set_vcxo_rate 1234 ⟨none, 7⟩ = (⟨none, 7⟩, []) :=
  ⟨rfl, (C8_rate_set_noop_without_timer 1234 ⟨none, 7⟩ timer_ptr.null rfl rfl).1⟩

/-- C9: when the counter timer was never acquired (`counter_timer` is `NULL`
or an error value), `get_counter_lower` returns 0 whatever the hardware holds,
and starting from the zero-initialised `counter_state` every call in any
sequence of calls of `steelhead_get_raw_counter` returns 0 and leaves the state
at `(upper = 0, lower_last = 0)`. -/
theorem C9_counter_read_without_timer (counter_timer : timer_ptr)
    (hfail : IS_ERR_OR_NULL counter_timer = true) (hws : List Nat) :
    (∀ hw : Nat, get_counter_lower counter_timer hw = 0) ∧
    (∀ r ∈ raw_counter_calls counter_timer counter_state_init hws,
      r = (0, counter_state_init)) ∧
    (raw_counter_calls counter_timer counter_state_init hws).length = hws.length := by
  have hlow : ∀ hw : Nat, get_counter_lower counter_timer hw = 0 := by
    intro hw
    simp [get_counter_lower, hfail]
  have hcall : ∀ hw : Nat,
      steelhead_get_raw_counter counter_timer hw counter_state_init
        = (0, counter_state_init) := by
    intro hw
    unfold steelhead_get_raw_counter
    rw [hlow hw]
    decide
  refine ⟨hlow, ?_, ?_⟩
  · induction hws with
    | nil => intro r hr; simp [raw_counter_calls] at hr
    | cons hw rest ih =>
      intro r hr
      simp only [raw_counter_calls, hcall hw, List.mem_cons] at hr
      rcases hr with hr | hr
      · exact hr
      · exact ih r hr
  · induction hws with
    | nil => rfl
    | cons hw rest ih =>
      simp only [raw_counter_calls, hcall hw, List.length_cons, ih]

/-- C9 (witness): a `NULL` counter timer and three calls, whatever the
hardware counter would have read. -/
theorem C9_counter_read_without_timer_witness :
    IS_ERR_OR_NULL timer_ptr.null = true ∧
    raw_counter_calls timer_ptr.null counter_state_init [0xFFFFFFF0, 0x10, 0x80000000]
      = [(0, counter_state_init), (0, counter_state_init), (0, counter_state_init)] ∧
    (∀ r ∈ raw_counter_calls timer_ptr.null counter_state_init
        [0xFFFFFFF0, 0x10, 0x80000000], r = (0, counter_state_init)) :=
  ⟨rfl, by decide,
    (C9_counter_read_without_timer timer_ptr.null rfl [0xFFFFFFF0, 0x10, 0x80000000]).2.1⟩

/-- C10: with the PWM timer present, for every 64-bit value `v` written
through `vcxo_debugfs_set_vcxo_value`, a following
`vcxo_debugfs_get_vcxo_value` returns the low 16 bits of `v` sign-extended to
64 bits (bits 16 to 63 all equal to bit 15), whichever duty regime the rate
falls in; so every `v` in `[-32768, 32767]` reads back as `v`. -/
theorem C10_value_node_round_trip (t : omap_dm_timer) (last : Int) (v : Nat)
    (hv : v < 2 ^ 64) :
    (vcxo_debugfs_get_vcxo_value (vcxo_debugfs_set_vcxo_value v ⟨some t, last⟩).1).1
      = (if v % 2 ^ 16 < 2 ^ 15 then v % 2 ^ 16 else v % 2 ^ 16 + (2 ^ 64 - 2 ^ 16)) ∧
    (vcxo_debugfs_get_vcxo_value (vcxo_debugfs_set_vcxo_value v ⟨some t, last⟩).1).2 = 0 ∧
    (-32768 ≤ s64_of_bits v → s64_of_bits v ≤ 32767 →
      s64_of_bits
          (vcxo_debugfs_get_vcxo_value (vcxo_debugfs_set_vcxo_value v ⟨some t, last⟩).1).1
        = s64_of_bits v) := by
  have hget : (vcxo_debugfs_get_vcxo_value
      (vcxo_debugfs_set_vcxo_value v ⟨some t, last⟩).1).1 = u64_of_int (s16_of_bits v) := by
    simp only [vcxo_debugfs_get_vcxo_value, vcxo_debugfs_set_vcxo_value,
      set_vcxo_rate_last_rate]
  have hext : u64_of_int (s16_of_bits v)
      = (if v % 2 ^ 16 < 2 ^ 15 then v % 2 ^ 16 else v % 2 ^ 16 + (2 ^ 64 - 2 ^ 16)) := by
    unfold u64_of_int s16_of_bits
    split <;> omega
  refine ⟨by rw [hget, hext], rfl, ?_⟩
  intro h1 h2
  rw [hget, hext]
  have h64 : v % 2 ^ 64 = v := Nat.mod_eq_of_lt hv
  unfold s64_of_bits at h1 h2 ⊢
  rw [h64] at h1 h2 ⊢
  split at h1 <;> split <;> split <;> omega

/-- C10 (witness): the 64-bit pattern of -32768, which falls in the always-off
regime. -/
theorem C10_value_node_round_trip_witness :
    (0xFFFFFFFFFFFF8000 : Nat) < 2 ^ 64 ∧
    s64_of_bits 0xFFFFFFFFFFFF8000 = -32768 ∧
    s64_of_bits (vcxo_debugfs_get_vcxo_value
        (vcxo_debugfs_set_vcxo_value 0xFFFFFFFFFFFF8000 ⟨some ⟨0, 0, 0, 0⟩, 0⟩).1).1
      = s64_of_bits 0xFFFFFFFFFFFF8000 :=
  ⟨by decide, by decide,
    (C10_value_node_round_trip ⟨0, 0, 0, 0⟩ 0 0xFFFFFFFFFFFF8000 (by decide)).2.2
      (by decide) (by decide)⟩

/-- C14: with the PWM timer present, for every rate whose match position is
not zero and whose `match_pos + 0xFFFFFBFF` is below `0xFFFFFFFE`, and every
prior register state, after `steelhead_set_vcxo_rate` LOAD holds
`VCXO_TIMER_START = 0xFFFFFBFF`, MATCH holds `match_pos + 0xFFFFFBFF`, COUNTER
holds `0xFFFFFFFD`, and CTRL is the prior CTRL with GPOCFG (bit 14) and SCPWM
(bit 7) cleared, the trigger field (bits 11:10) equal to 2, and PT (bit 12),
CE (bit 6), AR (bit 1) and ST (bit 0) set, every other bit unchanged. -/
theorem C14_variable_duty_programming (rate : Int) (t : omap_dm_timer) (last : Int)
    (hctrl : t.ctrl < 2 ^ 32) (h0 : match_pos rate ≠ 0)
    (h : match_pos rate + 0xFFFFFBFF < 0xFFFFFFFE) :
    ∃ t1, (steelhead_set_vcxo_rate rate ⟨some t, last⟩).1.vcxo_pwm_timer = some t1 ∧
      t1.load = VCXO_TIMER_START ∧ VCXO_TIMER_START = 0xFFFFFBFF ∧
      t1.match_reg = match_pos rate + 0xFFFFFBFF ∧
      t1.counter = 0xFFFFFFFD ∧
      t1.ctrl.testBit 14 = false ∧ t1.ctrl.testBit 7 = false ∧
      t1.ctrl.testBit 11 = true ∧ t1.ctrl.testBit 10 = false ∧
      t1.ctrl / 2 ^ 10 % 4 = 2 ∧
      t1.ctrl.testBit 12 = true ∧ t1.ctrl.testBit 6 = true ∧
      t1.ctrl.testBit 1 = true ∧ t1.ctrl.testBit 0 = true ∧
      (∀ i, i ∉ [0, 1, 6, 7, 10, 11, 12, 14] → t1.ctrl.testBit i = t.ctrl.testBit i) := by
  have hs : VCXO_TIMER_START = 0xFFFFFBFF := by decide
  have hmod : (match_pos rate + VCXO_TIMER_START) % 2 ^ 32 = match_pos rate + 0xFFFFFBFF := by
    rw [hs]
    apply Nat.mod_eq_of_lt
    norm_num at h ⊢
    omega
  have hvar : ¬ 0xFFFFFFFE ≤ (match_pos rate + VCXO_TIMER_START) % 2 ^ 32 := by
    rw [hmod]
    omega
  have hbits := ctrl_bits_variable t.ctrl hctrl
  have h11 := hbits 11
  have h10 := hbits 10
  rw [set_vcxo_rate_variable rate t last h0 hvar, hmod]
  refine ⟨_, rfl, rfl, hs, rfl, rfl, ?_, ?_, ?_, ?_, ?_, ?_, ?_, ?_, ?_, ?_⟩
  · rw [hbits 14]; rfl
  · rw [hbits 7]; rfl
  · rw [hbits 11]; rfl
  · rw [hbits 10]; rfl
  · simp only [Nat.testBit_to_div_mod, List.mem_cons, List.mem_singleton] at h11 h10
    norm_num at h11 h10 ⊢
    omega
  · rw [hbits 12]; rfl
  · rw [hbits 6]; rfl
  · rw [hbits 1]; rfl
  · rw [hbits 0]; rfl
  · intro i hi
    have h1 : i ∉ [0, 1, 6, 11, 12] := by
      intro hm
      apply hi
      simp only [List.mem_cons, List.mem_singleton, List.not_mem_nil, or_false] at hm ⊢
      omega
    have h2 : i ∉ [7, 10, 14] := by
      intro hm
      apply hi
      simp only [List.mem_cons, List.mem_singleton, List.not_mem_nil, or_false] at hm ⊢
      omega
    rw [hbits i, if_neg h1, if_neg h2]

/-- C14 (witness): rate 0 on a timer whose CTRL holds `0xFFFFFFFF`. -/
theorem C14_variable_duty_programming_witness :
    ((0xFFFFFFFF : Nat) < 2 ^ 32 ∧ match_pos 0 ≠ 0 ∧
      match_pos 0 + 0xFFFFFBFF < 0xFFFFFFFE) ∧
    ∃ t1, (steelhead_set_vcxo_rate 0 ⟨some ⟨0xFFFFFFFF, 1, 2, 3⟩, 7⟩).1.vcxo_pwm_timer
        = some t1 ∧
      t1.load = VCXO_TIMER_START ∧ VCXO_TIMER_START = 0xFFFFFBFF ∧
      t1.match_reg = match_pos 0 + 0xFFFFFBFF ∧
      t1.counter = 0xFFFFFFFD ∧
      t1.ctrl.testBit 14 = false ∧ t1.ctrl.testBit 7 = false ∧
      t1.ctrl.testBit 11 = true ∧ t1.ctrl.testBit 10 = false ∧
      t1.ctrl / 2 ^ 10 % 4 = 2 ∧
      t1.ctrl.testBit 12 = true ∧ t1.ctrl.testBit 6 = true ∧
      t1.ctrl.testBit 1 = true ∧ t1.ctrl.testBit 0 = true ∧
      (∀ i, i ∉ [0, 1, 6, 7, 10, 11, 12, 14] →
        t1.ctrl.testBit i = (0xFFFFFFFF : Nat).testBit i) :=
  ⟨by decide,
    C14_variable_duty_programming 0 ⟨0xFFFFFFFF, 1, 2, 3⟩ 7 (by decide) (by decide)
      (by decide)⟩

/-- C15: with the PWM timer present, for every signed 16-bit rate and every
prior register state, if the match position is 0 then after
`steelhead_set_vcxo_rate` CTRL is the prior CTRL with ST (bit 0), GPOCFG (bit
14) and SCPWM (bit 7) cleared; if `match_pos + VCXO_TIMER_START >= 0xFFFFFFFE`
then CTRL is the prior CTRL with ST and GPOCFG cleared and SCPWM set; in both
cases ST is clear in the final CTRL and LOAD, MATCH and COUNTER are
unchanged. -/
theorem C15_static_duty_regimes (rate : Int) (hlo : -32768 ≤ rate) (hhi : rate ≤ 32767)
    (t : omap_dm_timer) (last : Int) (hctrl : t.ctrl < 2 ^ 32) :
    (match_pos rate = 0 →
      ∃ t1, (steelhead_set_vcxo_rate rate ⟨some t, last⟩).1.vcxo_pwm_timer = some t1 ∧
        t1.ctrl.testBit 0 = false ∧ t1.ctrl.testBit 14 = false ∧
        t1.ctrl.testBit 7 = false ∧
        (∀ i, i ∉ [0, 7, 14] → t1.ctrl.testBit i = t.ctrl.testBit i) ∧
        t1.load = t.load ∧ t1.match_reg = t.match_reg ∧ t1.counter = t.counter) ∧
    (0xFFFFFFFE ≤ match_pos rate + VCXO_TIMER_START →
      ∃ t1, (steelhead_set_vcxo_rate rate ⟨some t, last⟩).1.vcxo_pwm_timer = some t1 ∧
        t1.ctrl.testBit 0 = false ∧ t1.ctrl.testBit 14 = false ∧
        t1.ctrl.testBit 7 = true ∧
        (∀ i, i ∉ [0, 7, 14] → t1.ctrl.testBit i = t.ctrl.testBit i) ∧
        t1.load = t.load ∧ t1.match_reg = t.match_reg ∧ t1.counter = t.counter) := by
  constructor
  · intro h0
    have hbits := ctrl_bits_always_off t.ctrl hctrl
    rw [set_vcxo_rate_always_off rate t last h0]
    refine ⟨_, rfl, ?_, ?_, ?_, ?_, rfl, rfl, rfl⟩
    · rw [hbits 0]; rfl
    · rw [hbits 14]; rfl
    · rw [hbits 7]; rfl
    · intro i hi
      rw [hbits i, if_neg hi]
  · intro hon
    obtain ⟨_, hmod⟩ := match_abs_no_wrap rate hlo hhi
    have hs : VCXO_TIMER_START = 0xFFFFFBFF := by decide
    have h0 : match_pos rate ≠ 0 := by
      intro hz
      rw [hz, hs] at hon
      revert hon
      decide
    have hge : 0xFFFFFFFE ≤ (match_pos rate + VCXO_TIMER_START) % 2 ^ 32 := by
      rw [hmod]
      exact hon
    have hbits := ctrl_bits_always_on t.ctrl hctrl
    rw [set_vcxo_rate_always_on rate t last h0 hge]
    refine ⟨_, rfl, ?_, ?_, ?_, ?_, rfl, rfl, rfl⟩
    · rw [hbits 0]; rfl
    · rw [hbits 14]; rfl
    · rw [hbits 7]; rfl
    · intro i hi
      have h7 : ¬ i = 7 := by
        intro h7
        apply hi
        simp [h7]
      have h2 : i ∉ [0, 14] := by
        intro hm
        apply hi
        simp only [List.mem_cons, List.mem_singleton, List.not_mem_nil, or_false] at hm ⊢
        omega
      rw [hbits i, if_neg h7, if_neg h2]

/-- C15 (witness): the rate -32768, whose match position is 0, on a timer
whose CTRL holds `0xFFFFFFFF`. -/
theorem C15_static_duty_regimes_witness :
    ((-32768 : Int) ≤ -32768 ∧ (-32768 : Int) ≤ 32767 ∧ (0xFFFFFFFF : Nat) < 2 ^ 32 ∧
      match_pos (-32768) = 0) ∧
    ∃ t1, (steelhead_set_vcxo_rate (-32768) ⟨some ⟨0xFFFFFFFF, 1, 2, 3⟩, 7⟩).1.vcxo_pwm_timer
        = some t1 ∧
      t1.ctrl.testBit 0 = false ∧ t1.ctrl.testBit 14 = false ∧
      t1.ctrl.testBit 7 = false ∧
      (∀ i, i ∉ [0, 7, 14] → t1.ctrl.testBit i = (0xFFFFFFFF : Nat).testBit i) ∧
      t1.load = 1 ∧ t1.match_reg = 2 ∧ t1.counter = 3 :=
  ⟨by decide,
    (C15_static_duty_regimes (-32768) (by decide) (by decide) ⟨0xFFFFFFFF, 1, 2, 3⟩ 7
      (by decide)).1 (by decide)⟩

/-- C16: in the ordered trace of register writes made by any call of
`steelhead_set_vcxo_rate` with the PWM timer present, for every signed 16-bit
rate and prior register state, the first write is to CTRL with the ST bit
clear, no write to LOAD, MATCH or COUNTER occurs while the timer runs (ST set
in CTRL before the call or in the most recently written CTRL value), and a
write that sets ST is the last write of the variable-duty path. -/
theorem C16_stop_before_reprogramming (rate : Int) (hlo : -32768 ≤ rate)
    (hhi : rate ≤ 32767) (t : omap_dm_timer) (last : Int) :
    (∃ v rest, trace_writes (steelhead_set_vcxo_rate rate ⟨some t, last⟩).2
        = (TIMER_CTRL_OFFSET, v) :: rest ∧ v.testBit 0 = false) ∧
    writes_only_while_stopped (t.ctrl.testBit 0)
      (steelhead_set_vcxo_rate rate ⟨some t, last⟩).2 ∧
    (∀ i v, (trace_writes (steelhead_set_vcxo_rate rate ⟨some t, last⟩).2)[i]?
        = some (TIMER_CTRL_OFFSET, v) → v.testBit 0 = true →
      i + 1 = (trace_writes (steelhead_set_vcxo_rate rate ⟨some t, last⟩).2).length ∧
      match_pos rate ≠ 0 ∧ match_pos rate + VCXO_TIMER_START < 0xFFFFFFFE) := by
  obtain ⟨_, hmod⟩ := match_abs_no_wrap rate hlo hhi
  have e1 : TIMER_LOAD_OFFSET ≠ TIMER_CTRL_OFFSET := by decide
  have e2 : TIMER_MATCH_OFFSET ≠ TIMER_CTRL_OFFSET := by decide
  have e3 : TIMER_COUNTER_OFFSET ≠ TIMER_CTRL_OFFSET := by decide
  have hst := st_clear_after_stop t.ctrl
  by_cases h0 : match_pos rate = 0
  · have hoff := st_clear_always_off t.ctrl
    rw [set_vcxo_rate_always_off rate t last h0]
    refine ⟨⟨_, _, rfl, hst⟩, ?_, ?_⟩
    · simp only [writes_only_while_stopped, if_true]
    · intro i v hi hv
      simp only [trace_writes] at hi
      rcases i with _ | _ | i
      · simp only [List.getElem?_cons_zero, Option.some.injEq, Prod.mk.injEq, true_and] at hi
        rw [← hi, hst] at hv
        exact Bool.noConfusion hv
      · simp only [List.getElem?_cons_succ, List.getElem?_cons_zero, Option.some.injEq,
          Prod.mk.injEq, true_and] at hi
        rw [← hi, hoff] at hv
        exact Bool.noConfusion hv
      · simp at hi
  · by_cases hge : 0xFFFFFFFE ≤ (match_pos rate + VCXO_TIMER_START) % 2 ^ 32
    · have hon := st_clear_always_on t.ctrl
      rw [set_vcxo_rate_always_on rate t last h0 hge]
      refine ⟨⟨_, _, rfl, hst⟩, ?_, ?_⟩
      · simp only [writes_only_while_stopped, if_true]
      · intro i v hi hv
        simp only [trace_writes] at hi
        rcases i with _ | _ | i
        · simp only [List.getElem?_cons_zero, Option.some.injEq, Prod.mk.injEq,
            true_and] at hi
          rw [← hi, hst] at hv
          exact Bool.noConfusion hv
        · simp only [List.getElem?_cons_succ, List.getElem?_cons_zero, Option.some.injEq,
            Prod.mk.injEq, true_and] at hi
          rw [← hi, hon] at hv
          exact Bool.noConfusion hv
        · simp at hi
    · rw [set_vcxo_rate_variable rate t last h0 hge]
      refine ⟨⟨_, _, rfl, hst⟩, ?_, ?_⟩
      · simp only [writes_only_while_stopped, if_true, e1, e2, e3, if_false, hst, and_self]
      · intro i v hi hv
        simp only [trace_writes] at hi
        rcases i with _ | _ | _ | _ | _ | i
        · simp only [List.getElem?_cons_zero, Option.some.injEq, Prod.mk.injEq,
            true_and] at hi
          rw [← hi, hst] at hv
          exact Bool.noConfusion hv
        · simp only [List.getElem?_cons_succ, List.getElem?_cons_zero, Option.some.injEq,
            Prod.mk.injEq, e1, false_and] at hi
        · simp only [List.getElem?_cons_succ, List.getElem?_cons_zero, Option.some.injEq,
            Prod.mk.injEq, e2, false_and] at hi
        · simp only [List.getElem?_cons_succ, List.getElem?_cons_zero, Option.some.injEq,
            Prod.mk.injEq, e3, false_and] at hi
        · refine ⟨rfl, h0, ?_⟩
          rw [hmod] at hge
          omega
        · simp at hi

/-- C16 (witness): rate 0 on a running timer (CTRL holds `0xFFFFFFFF`). -/
theorem C16_stop_before_reprogramming_witness :
    ((-32768 : Int) ≤ 0 ∧ (0 : Int) ≤ 32767) ∧
    trace_writes (steelhead_set_vcxo_rate 0 ⟨some ⟨0xFFFFFFFF, 1, 2, 3⟩, 7⟩).2
      = [(TIMER_CTRL_OFFSET, 0xFFFFFFFE), (TIMER_LOAD_OFFSET, 0xFFFFFBFF),
         (TIMER_MATCH_OFFSET, 0xFFFFFDFF), (TIMER_COUNTER_OFFSET, 0xFFFFFFFD),
         (TIMER_CTRL_OFFSET, 0xFFFFBB7F)] ∧
    writes_only_while_stopped ((0xFFFFFFFF : Nat).testBit 0)
      (steelhead_set_vcxo_rate 0 ⟨some ⟨0xFFFFFFFF, 1, 2, 3⟩, 7⟩).2 :=
  ⟨by decide, by decide,
    (C16_stop_before_reprogramming 0 (by decide) (by decide) ⟨0xFFFFFFFF, 1, 2, 3⟩ 7).2.1⟩

/-- C21: for every signed 16-bit rate the 32-bit addition
`match_pos + VCXO_TIMER_START` of `steelhead_set_vcxo_rate` does not wrap (the
sum is at most `0xFFFFFFFE`), and whenever the variable-duty path is taken
(MATCH is written) the value written to MATCH is strictly greater than the
value written to LOAD, `0xFFFFFBFF`, and at most `0xFFFFFFFD`, the value preset
into COUNTER. -/
theorem C21_match_arithmetic_in_range (rate : Int) (hlo : -32768 ≤ rate)
    (hhi : rate ≤ 32767) (t : omap_dm_timer) (last : Int) :
    match_pos rate + VCXO_TIMER_START ≤ 0xFFFFFFFE ∧
    (match_pos rate + VCXO_TIMER_START) % 2 ^ 32 = match_pos rate + VCXO_TIMER_START ∧
    (∀ v, reg_access.write TIMER_MATCH_OFFSET v
        ∈ (steelhead_set_vcxo_rate rate ⟨some t, last⟩).2 →
      v = match_pos rate + VCXO_TIMER_START ∧
      reg_access.write TIMER_LOAD_OFFSET 0xFFFFFBFF
        ∈ (steelhead_set_vcxo_rate rate ⟨some t, last⟩).2 ∧
      reg_access.write TIMER_COUNTER_OFFSET 0xFFFFFFFD
        ∈ (steelhead_set_vcxo_rate rate ⟨some t, last⟩).2 ∧
      0xFFFFFBFF < v ∧ v ≤ 0xFFFFFFFD) ∧
    (∀ w, reg_access.write TIMER_LOAD_OFFSET w
        ∈ (steelhead_set_vcxo_rate rate ⟨some t, last⟩).2 → w = 0xFFFFFBFF) ∧
    (∀ w, reg_access.write TIMER_COUNTER_OFFSET w
        ∈ (steelhead_set_vcxo_rate rate ⟨some t, last⟩).2 → w = 0xFFFFFFFD) ∧
    (match_pos rate ≠ 0 → match_pos rate + VCXO_TIMER_START < 0xFFFFFFFE →
      reg_access.write TIMER_MATCH_OFFSET (match_pos rate + VCXO_TIMER_START)
        ∈ (steelhead_set_vcxo_rate rate ⟨some t, last⟩).2 ∧
      ∃ t1, (steelhead_set_vcxo_rate rate ⟨some t, last⟩).1.vcxo_pwm_timer = some t1 ∧
        t1.load = 0xFFFFFBFF ∧ t1.load < t1.match_reg ∧ t1.match_reg ≤ t1.counter ∧
        t1.counter = 0xFFFFFFFD) := by
  obtain ⟨hmp, hmod⟩ := match_abs_no_wrap rate hlo hhi
  have hs : VCXO_TIMER_START = 0xFFFFFBFF := by decide
  have e1 : TIMER_MATCH_OFFSET ≠ TIMER_CTRL_OFFSET := by decide
  have e2 : TIMER_MATCH_OFFSET ≠ TIMER_LOAD_OFFSET := by decide
  have e3 : TIMER_MATCH_OFFSET ≠ TIMER_COUNTER_OFFSET := by decide
  have e4 : TIMER_LOAD_OFFSET ≠ TIMER_CTRL_OFFSET := by decide
  have e5 : TIMER_LOAD_OFFSET ≠ TIMER_MATCH_OFFSET := by decide
  have e6 : TIMER_LOAD_OFFSET ≠ TIMER_COUNTER_OFFSET := by decide
  have e7 : TIMER_COUNTER_OFFSET ≠ TIMER_CTRL_OFFSET := by decide
  have e8 : TIMER_COUNTER_OFFSET ≠ TIMER_LOAD_OFFSET := by decide
  have e9 : TIMER_COUNTER_OFFSET ≠ TIMER_MATCH_OFFSET := by decide
  have hsum : match_pos rate + VCXO_TIMER_START ≤ 0xFFFFFFFE := by
    rw [hs]
    omega
  refine ⟨hsum, hmod, ?_⟩
  by_cases h0 : match_pos rate = 0
  · rw [set_vcxo_rate_always_off rate t last h0]
    refine ⟨?_, ?_, ?_, fun hne => absurd h0 hne⟩
    · intro v hv
      simp [e1] at hv
    · intro w hw
      simp [e4] at hw
    · intro w hw
      simp [e7] at hw
  · by_cases hge : 0xFFFFFFFE ≤ (match_pos rate + VCXO_TIMER_START) % 2 ^ 32
    · rw [set_vcxo_rate_always_on rate t last h0 hge]
      refine ⟨?_, ?_, ?_, ?_⟩
      · intro v hv
        simp [e1] at hv
      · intro w hw
        simp [e4] at hw
      · intro w hw
        simp [e7] at hw
      · intro _ hlt
        rw [hmod] at hge
        omega
    · rw [set_vcxo_rate_variable rate t last h0 hge, hmod]
      have hlt : match_pos rate + VCXO_TIMER_START < 0xFFFFFFFE := by
        rw [hmod] at hge
        omega
      have hpos : 0 < match_pos rate := Nat.pos_of_ne_zero h0
      refine ⟨?_, ?_, ?_, ?_⟩
      · intro v hv
        simp only [List.mem_cons, reg_access.write.injEq, e1, e2, e3, false_and, true_and,
          false_or, or_false, List.mem_singleton, List.not_mem_nil, reduceCtorEq] at hv
        subst hv
        refine ⟨rfl, ?_, ?_, ?_, ?_⟩
        · rw [hs]; simp
        · simp
        · rw [hs]; omega
        · rw [hs] at hlt ⊢; omega
      · intro w hw
        simp only [List.mem_cons, reg_access.write.injEq, e4, e5, e6, false_and, true_and,
          false_or, or_false, List.mem_singleton, List.not_mem_nil, reduceCtorEq] at hw
        rw [hw, hs]
      · intro w hw
        simp only [List.mem_cons, reg_access.write.injEq, e7, e8, e9, false_and, true_and,
          false_or, or_false, List.mem_singleton, List.not_mem_nil, reduceCtorEq] at hw
        exact hw
      · intro _ _
        refine ⟨by simp, _, rfl, hs, ?_, ?_, rfl⟩
        · show VCXO_TIMER_START < match_pos rate + VCXO_TIMER_START
          omega
        · show match_pos rate + VCXO_TIMER_START ≤ 0xFFFFFFFD
          omega

/-- C21 (witness): rate 0, whose match position is 512: MATCH is written with
`0xFFFFFDFF`, between `0xFFFFFBFF` and `0xFFFFFFFD`. -/
theorem C21_match_arithmetic_in_range_witness :
    ((-32768 : Int) ≤ 0 ∧ (0 : Int) ≤ 32767 ∧ match_pos 0 ≠ 0 ∧
      match_pos 0 + VCXO_TIMER_START < 0xFFFFFFFE) ∧
    match_pos 0 + VCXO_TIMER_START = 0xFFFFFDFF ∧
    reg_access.write TIMER_MATCH_OFFSET (match_pos 0 + VCXO_TIMER_START)
      ∈ (steelhead_set_vcxo_rate 0 ⟨some ⟨0xFFFFFFFF, 1, 2, 3⟩, 7⟩).2 ∧
    ∃ t1, (steelhead_set_vcxo_rate 0 ⟨some ⟨0xFFFFFFFF, 1, 2, 3⟩, 7⟩).1.vcxo_pwm_timer
        = some t1 ∧
      t1.load = 0xFFFFFBFF ∧ t1.load < t1.match_reg ∧ t1.match_reg ≤ t1.counter ∧
      t1.counter = 0xFFFFFFFD :=
  ⟨by decide, by decide,
    ((C21_match_arithmetic_in_range 0 (by decide) (by decide) ⟨0xFFFFFFFF, 1, 2, 3⟩ 7).2.2.2.2.2
      (by decide) (by decide)).1,
    ((C21_match_arithmetic_in_range 0 (by decide) (by decide) ⟨0xFFFFFFFF, 1, 2, 3⟩ 7).2.2.2.2.2
      (by decide) (by decide)).2⟩

/-! ## Claims about the register shim and the two counter instances -/

/-- C19 (the code at the failing input): a capture event handled by
`timer_capture_irq` leaves the primary `counter_state` unchanged and
`steelhead_get_raw_counter` leaves `tsdebug_counter_state` unchanged, but the
lock the capture path takes is `counter_state.lock`, the lock of the primary
instance and the same lock `steelhead_get_raw_counter` takes, not the lock of
`tsdebug_counter_state`. -/
theorem C19_capture_takes_primary_lock (capture1 : Nat) (counter_timer : timer_ptr)
    (hw_counter : Nat) (g : counter_globals) :
    (timer_capture_irq capture1 g).2.1.counter_state = g.counter_state ∧
    (timer_capture_irq capture1 g).2.1.tsdebug_counter_state
      = (get_counter_internal_l g.tsdebug_counter_state (capture1 % 2 ^ 32)).2 ∧
    (steelhead_get_raw_counter_locked counter_timer hw_counter g).2.1.tsdebug_counter_state
      = g.tsdebug_counter_state ∧
    (timer_capture_irq capture1 g).2.2 = lock_id.counter_state_lock ∧
    (timer_capture_irq capture1 g).2.2 ≠ lock_id.tsdebug_counter_state_lock ∧
    (timer_capture_irq capture1 g).2.2
      = (steelhead_get_raw_counter_locked counter_timer hw_counter g).2.2 := by
  refine ⟨rfl, rfl, rfl, rfl, ?_, rfl⟩
  intro h
  exact lock_id.noConfusion h

/-- C20: for every sequence of values returned by the write-pending register,
`timer_wait_no_write_pending` makes no poll when the timer is not in posted
mode and otherwise makes at most 100,000 polls, stopping at the first poll
whose low 8 bits are zero; the timeout is reported exactly when every one of
the first 100,000 polls showed a pending write (the loop counter reached
100,000); and in every case `timer_read_reg` and `timer_write_reg` make their
register access afterwards. -/
theorem C20_bounded_write_pending_wait (posted : Bool) (wp : Nat → Nat)
    (t : omap_dm_timer) (reg val : Nat) :
    (posted = false → timer_wait_no_write_pending posted wp = ⟨0, false⟩) ∧
    (posted = true →
      (timer_wait_no_write_pending posted wp).polls ≤ 100000 ∧
      (∀ k, k < 100000 → wp k % 256 = 0 → (∀ j, j < k → wp j % 256 ≠ 0) →
        timer_wait_no_write_pending posted wp = ⟨k + 1, false⟩) ∧
      ((timer_wait_no_write_pending posted wp).timeout = true
        ↔ ∀ k, k < 100000 → wp k % 256 ≠ 0) ∧
      ((timer_wait_no_write_pending posted wp).timeout = true →
        (timer_wait_no_write_pending posted wp).polls = 100000)) ∧
    (timer_read_reg_posted posted wp t reg).2
      = ([reg_access.read reg], timer_read_reg t reg) ∧
    (timer_write_reg_posted posted wp t reg val).2
      = ([reg_access.write reg val], timer_write_reg t reg val) := by
  refine ⟨?_, ?_, rfl, rfl⟩
  · intro hp
    rw [hp]
    rfl
  · intro hp
    rw [hp]
    obtain ⟨_, h2, h3, h4, h5⟩ := wp_poll_loop_spec wp 100000 0 0
    simp only [Nat.zero_add, Nat.sub_zero] at h2 h4 h5
    have hw : timer_wait_no_write_pending true wp
        = ⟨(wp_poll_loop wp 100000 0 0).2, (wp_poll_loop wp 100000 0 0).1 == 100000⟩ := rfl
    rw [hw]
    simp only [beq_iff_eq]
    refine ⟨?_, ?_, ?_, ?_⟩
    · by_cases hlt : (wp_poll_loop wp 100000 0 0).1 < 100000
      · have := (h4 hlt).2
        omega
      · have := h5 (by omega)
        omega
    · intro k hk hzero hbefore
      have hle : (wp_poll_loop wp 100000 0 0).1 ≤ k := by
        by_contra hgt
        exact h3 k (Nat.zero_le _) (by omega) hzero
      have hge : k ≤ (wp_poll_loop wp 100000 0 0).1 := by
        by_contra hlt
        exact hbefore _ (by omega) (h4 (by omega)).1
      have heq : (wp_poll_loop wp 100000 0 0).1 = k := by omega
      have hpolls := (h4 (by omega)).2
      rw [heq] at hpolls
      rw [hpolls, heq]
      have hne : ¬ k = 100000 := by omega
      simp [hne]
    · constructor
      · intro ht k hk
        exact h3 k (Nat.zero_le _) (by omega)
      · intro hall
        by_contra hne
        exact hall _ (by omega) (h4 (by omega)).1
    · intro ht
      exact h5 ht

/-- C20 (witness): a posted timer whose first three polls show a pending
write and whose fourth shows none: four polls, no timeout. -/
theorem C20_bounded_write_pending_wait_witness :
    timer_wait_no_write_pending true (fun k => if k < 3 then 1 else 0) = ⟨4, false⟩ ∧
    (timer_write_reg_posted true (fun k => if k < 3 then 1 else 0) ⟨0, 0, 0, 0⟩
        TIMER_LOAD_OFFSET 5).2
      = ([reg_access.write TIMER_LOAD_OFFSET 5], ⟨0, 5, 0, 0⟩) :=
  ⟨((C20_bounded_write_pending_wait true (fun k => if k < 3 then 1 else 0) ⟨0, 0, 0, 0⟩
      TIMER_LOAD_OFFSET 5).2.1 rfl).2.1 3 (by decide) (by decide) (by decide),
    (C20_bounded_write_pending_wait true (fun k => if k < 3 then 1 else 0) ⟨0, 0, 0, 0⟩
      TIMER_LOAD_OFFSET 5).2.2.2⟩

/-! ## Claims about the rollover guard and the factory test -/

/-- C11 (counterexample): with nominal frequency `F = 1` and tick rate
`HZ = 100` the stored period is 0, while `floor(0x40000000 * 100 / 1)` is
107374182400: the quotient does not fit the 32 bits it is cut to. -/
theorem C11_period_counterexample :
    (0 : Nat) < 1 ∧
    (∃ r, steelhead_platform_init_counter 100 1 0 = some r ∧
      r.2.counter_freq = 1 ∧ r.2.rollover_check_timer_period = 0) ∧
    0x40000000 * 100 / 1 = 107374182400 ∧
    ¬ (∃ r, steelhead_platform_init_counter 100 1 0 = some r ∧
      r.2.rollover_check_timer_period = 0x40000000 * 100 / 1) := by
  refine ⟨by decide, ⟨_, rfl, by decide, by decide⟩, by decide, ?_⟩
  rintro ⟨r, hr, hp⟩
  have h : steelhead_platform_init_counter 100 1 0
      = some (⟨⟨0, 0⟩, ⟨0, 0⟩⟩, ⟨1, 0, 0⟩) := by decide
  rw [h] at hr
  cases hr
  revert hp
  decide

/-- C11 (amended): for every nominal frequency `F > 0` and every host tick
rate `HZ` below `4 * F` (so that the quotient fits in 32 bits), the period
stored in `rollover_check_timer_period` by `steelhead_platform_init_counter`
equals `floor(0x40000000 * HZ / F)`. -/
theorem C11_rollover_guard_period (HZ F jiffies : Nat) (hF : 0 < F) (hF32 : F < 2 ^ 32)
    (hHZ : HZ < 4 * F) :
    ∃ r, steelhead_platform_init_counter HZ F jiffies = some r ∧
      r.2.counter_freq = F ∧
      r.2.rollover_check_timer_period = 0x40000000 * HZ / F := by
  have hFmod : F % 2 ^ 32 = F := Nat.mod_eq_of_lt hF32
  have hne : ¬ F = 0 := by omega
  have hmul : 0x40000000 * HZ % 2 ^ 64 = 0x40000000 * HZ := by
    apply Nat.mod_eq_of_lt
    norm_num at hF32 ⊢
    omega
  have hq : 0x40000000 * HZ / F < 2 ^ 32 := by
    apply Nat.div_lt_of_lt_mul
    have : 0x40000000 * HZ < 0x40000000 * (4 * F) :=
      Nat.mul_lt_mul_of_pos_left hHZ (by norm_num)
    calc 0x40000000 * HZ < 0x40000000 * (4 * F) := this
      _ = F * 2 ^ 32 := by ring
  unfold steelhead_platform_init_counter do_div
  simp only [hFmod, hmul, hne, if_false, Nat.mod_eq_of_lt hq]
  exact ⟨_, rfl, rfl, rfl⟩

/-- C11 (witness): `F = 38,400,000` Hz with `HZ = 128` gives a period of 3579
ticks. -/
theorem C11_rollover_guard_period_witness :
    ((0 : Nat) < 38400000 ∧ (38400000 : Nat) < 2 ^ 32 ∧ (128 : Nat) < 4 * 38400000) ∧
    0x40000000 * 128 / 38400000 = 3579 ∧
    ∃ r, steelhead_platform_init_counter 128 38400000 0 = some r ∧
      r.2.counter_freq = 38400000 ∧
      r.2.rollover_check_timer_period = 0x40000000 * 128 / 38400000 :=
  ⟨by decide, by decide,
    C11_rollover_guard_period 128 38400000 0 (by decide) (by decide) (by decide)⟩

/-- C12 (the code at the failing input): a test read after `d32 = 140737489`
reference ticks (4294967315 microseconds, about 71.6 minutes) and
`d38 = 164926783296` counter ticks (4294968315 microseconds, 1000 more) prints
`ppm = 52631578`, while `(usec38 - usec32) * 1000000 / usec32` is 0: the
divisor handed to `do_div` is `(uint32_t)usec_delta_32k`, here 19 and not
4294967315.  At `d32 = 32768` and a counter delta worth 1,000,010
microseconds the same code prints the value aimed at, 10. -/
theorem C12_ppm_truncated_divisor :
    (140737489 : Nat) < 2 ^ 32 ∧
    140737489 * 1000000 / 32768 = 4294967315 ∧
    164926783296 * 1000000 / 38400000 = 4294968315 ∧
    factory_test_result 140737489 164926783296
      = some (4294967315, 4294968315, 52631578) ∧
    ((4294968315 : Int) - 4294967315) * 1000000 / 4294967315 = 0 ∧
    Int.tdiv (((4294968315 : Int) - 4294967315) * 1000000) 4294967315 = 0 ∧
    u32_of_int 4294967315 = 19 ∧
    Int.tdiv (((4294968315 : Int) - 4294967315) * 1000000) 19 = 52631578 ∧
    (∃ r, vcxo_debugfs_test_read vcxo_debugfs_test_open 4096 false 140738489
        (timer_ptr.valid ⟨0, 0, 0, 0⟩) 1718026048 ⟨⟨38, 0⟩, ⟨1000, 0, 1⟩⟩ = some r ∧
      String.mk r.buf
        = "VCXO Factory Test\nuSec on 32 KHz Clock   = 4294967315\nuSec on 38.4 MHz Clock = 4294968315\nppm difference         = 52631578\n" ∧
      r.ret_val = 124) ∧
    factory_test_result 32768 38400384 = some (1000000, 1000010, 10) := by
  have hres : factory_test_result 140737489 164926783296
      = some (4294967315, 4294968315, 52631578) := by
    set_option maxRecDepth 100000 in decide
  have harmed :
      (⟨⟨38, 0⟩, ⟨1000, 0, 1⟩⟩ : diag_state).test.vcxo_factory_test_in_progress ≠ 0 := by
    decide
  have h := vcxo_debugfs_test_read_armed 4096 false 140738489 (timer_ptr.valid ⟨0, 0, 0, 0⟩)
    1718026048 ⟨⟨38, 0⟩, ⟨1000, 0, 1⟩⟩ harmed
  have h32 : u32_of_int ((vcxo_debugfs_read_32k 140738489 : Int)
      - ((⟨⟨38, 0⟩, ⟨1000, 0, 1⟩⟩ : diag_state).test.vcxo_factory_test_32k_start_time : Int))
      = 140737489 := by decide
  have h38 : s64_wrap ((steelhead_get_raw_counter (timer_ptr.valid ⟨0, 0, 0, 0⟩) 1718026048
      (⟨⟨38, 0⟩, ⟨1000, 0, 1⟩⟩ : diag_state).counter).1
      - (⟨⟨38, 0⟩, ⟨1000, 0, 1⟩⟩ : diag_state).test.vcxo_factory_test_38400k_start_time)
      = 164926783296 := by decide
  rw [h32, h38, hres] at h
  refine ⟨by decide, by decide, by decide, hres, by decide, by decide, by decide, by decide,
    ⟨_, h, ?_, ?_⟩, by decide⟩
  · rw [(test_read_finish_fields _ _ _ _).1]
    set_option maxRecDepth 100000 in decide
  · rw [(test_read_finish_fields _ _ _ _).2.2.2]
    set_option maxRecDepth 100000 in decide

/-- C13 (counterexample): a read on a freshly opened file, with no test
started, whose copy to the caller fails returns `-EFAULT = -14`, which is an
error. -/
theorem C13_read_error_counterexample :
    ∃ r, vcxo_debugfs_test_read vcxo_debugfs_test_open 100 true 0 timer_ptr.null 0
        ⟨⟨0, 0⟩, ⟨0, 0, 0⟩⟩ = some r ∧
      r.buf = ("VCXO Factory Test was not started.\n").data ∧
      r.ret_val = -14 ∧ r.ret_val < 0 := by
  refine ⟨_, rfl, by rfl, by decide, by decide⟩

/-- C13 (amended): for every sequence of start requests and read requests
(each read on a freshly opened file) served from a state with no test in
progress, a following read reports the fixed message
`VCXO Factory Test was not started.` when no start request occurred since the
previous read (or since initialisation), and otherwise, when its divisions are
defined, reports the measurement taken relative to the most recent start,
which is a different text; every such read leaves
`vcxo_factory_test_in_progress` cleared, and it returns the number of bytes
copied, not an error, unless the copy to the caller fails, in which case it
returns `-EFAULT`. -/
theorem C13_factory_test_state_machine (counter_timer : timer_ptr) (s0 : diag_state)
    (h0 : s0.test.vcxo_factory_test_in_progress = 0) (pre : List test_request)
    (s : diag_state) (hrun : run_test_requests counter_timer s0 pre = some s)
    (count : Nat) (copy_fault : Bool) (reg_32k hw_counter : Nat) :
    ((∀ c n h, pre.getLast? ≠ some (test_request.start c n h)) →
      ∃ r, vcxo_debugfs_test_read vcxo_debugfs_test_open count copy_fault reg_32k
          counter_timer hw_counter s = some r ∧
        r.buf = ("VCXO Factory Test was not started.\n").data ∧
        r.state.test.vcxo_factory_test_in_progress = 0 ∧
        r.ret_val = (if copy_fault = true ∧ min 35 count ≠ 0 then -EFAULT
          else ((min 35 count : Nat) : Int))) ∧
    (∀ pre0 c n h, pre = pre0 ++ [test_request.start c n h] →
      ∃ s1, run_test_requests counter_timer s0 pre0 = some s1 ∧
        ∀ m, factory_test_result
            (u32_of_int ((vcxo_debugfs_read_32k reg_32k : Int)
              - (vcxo_debugfs_read_32k n : Int)))
            (s64_wrap ((steelhead_get_raw_counter counter_timer hw_counter s.counter).1
              - (steelhead_get_raw_counter counter_timer h s1.counter).1)) = some m →
          ∃ r, vcxo_debugfs_test_read vcxo_debugfs_test_open count copy_fault reg_32k
              counter_timer hw_counter s = some r ∧
            r.buf = (factory_test_text (some m)).take 511 ∧
            r.buf ≠ ("VCXO Factory Test was not started.\n").data ∧
            r.state.test.vcxo_factory_test_in_progress = 0 ∧
            r.ret_val = (if copy_fault = true ∧ min r.buf.length count ≠ 0 then -EFAULT
              else ((min r.buf.length count : Nat) : Int))) := by
  obtain ⟨hidle, harmed⟩ := run_test_requests_last counter_timer s0 h0 pre s hrun
  constructor
  · intro hno
    have hz := hidle hno
    have hf := test_read_finish_fields (factory_test_text none) count copy_fault
      ⟨s.counter, { s.test with vcxo_factory_test_in_progress := 0 }⟩
    have htext : (factory_test_text none).take 511
        = ("VCXO Factory Test was not started.\n").data := by rfl
    have hlen : ((factory_test_text none).take 511).length = 35 := by rfl
    refine ⟨_, vcxo_debugfs_test_read_idle count copy_fault reg_32k counter_timer
      hw_counter s hz, ?_, ?_, ?_⟩
    · rw [hf.1, htext]
    · rw [hf.2.1]
    · rw [hf.2.2.2, hlen]
  · intro pre0 c n h hp
    obtain ⟨s1, hs1, hs⟩ := harmed pre0 c n h hp
    refine ⟨s1, hs1, ?_⟩
    intro m hm
    have hprog : s.test.vcxo_factory_test_in_progress ≠ 0 := by
      rw [hs]
      simp [vcxo_debugfs_test_write]
    have h32 : s.test.vcxo_factory_test_32k_start_time = vcxo_debugfs_read_32k n := by
      rw [hs]
      rfl
    have h38 : s.test.vcxo_factory_test_38400k_start_time
        = (steelhead_get_raw_counter counter_timer h s1.counter).1 := by
      rw [hs]
      rfl
    have hread := vcxo_debugfs_test_read_armed count copy_fault reg_32k counter_timer
      hw_counter s hprog
    rw [h32, h38, hm] at hread
    have hf := test_read_finish_fields (factory_test_text (some m)) count copy_fault
      ⟨(steelhead_get_raw_counter counter_timer hw_counter s.counter).2,
        { s.test with vcxo_factory_test_in_progress := 0 }⟩
    refine ⟨_, hread, hf.1, ?_, ?_, ?_⟩
    · rw [hf.1]
      exact factory_test_text_take_ne m
    · rw [hf.2.1]
    · rw [hf.2.2.2, hf.1]

/-- C13 (witness): a start, a read, and a second read: the first read reports
the measurement of the started test (10 ppm), the second that no test was
started. -/
theorem C13_factory_test_state_machine_witness :
    run_test_requests timer_ptr.null ⟨⟨0, 0⟩, ⟨0, 0, 0⟩⟩
        [test_request.start 1 1000 0, test_request.read 4096 false 33768 0]
      = some ⟨⟨0, 0⟩, ⟨1000, 0, 0⟩⟩ ∧
    ∃ r, vcxo_debugfs_test_read vcxo_debugfs_test_open 4096 false 50000 timer_ptr.null 0
        ⟨⟨0, 0⟩, ⟨1000, 0, 0⟩⟩ = some r ∧
      r.buf = ("VCXO Factory Test was not started.\n").data ∧
      r.state.test.vcxo_factory_test_in_progress = 0 ∧
      r.ret_val = (if false = true ∧ min 35 4096 ≠ 0 then -EFAULT
        else ((min 35 4096 : Nat) : Int)) :=
  ⟨by set_option maxRecDepth 100000 in decide,
    (C13_factory_test_state_machine timer_ptr.null ⟨⟨0, 0⟩, ⟨0, 0, 0⟩⟩ rfl
      [test_request.start 1 1000 0, test_request.read 4096 false 33768 0]
      ⟨⟨0, 0⟩, ⟨1000, 0, 0⟩⟩ (by set_option maxRecDepth 100000 in decide)
      4096 false 50000 0).1 (by simp)⟩

/-- C17: for every 32-bit reference tick delta `d32` the value reported as
microseconds on the 32 KHz clock is `floor(d32 * 1000000 / 32768)`, computed as
`d32 * 15625 / 512` without 64-bit overflow, and for every non-negative counter
delta `d38` with `d38 * 10` below `2^63` the value reported as microseconds on
the 38.4 MHz clock is `floor(d38 * 1000000 / 38400000)`, computed as
`d38 * 10 / 384`; a report is produced whenever the ppm divisor is not zero. -/
theorem C17_exact_microseconds (d32 d38 : Nat) (hd32 : d32 < 2 ^ 32)
    (hd38 : d38 * 10 < 2 ^ 63) :
    d32 * 15625 < 2 ^ 63 ∧
    d32 * 15625 / 512 = d32 * 1000000 / 32768 ∧
    d38 * 10 / 384 = d38 * 1000000 / 38400000 ∧
    do_div_s64 (s64_wrap ((d32 : Int) * 15625)) 512
      = some ((d32 * 1000000 / 32768 : Nat) : Int) ∧
    do_div_s64 (s64_wrap ((d38 : Int) * 10)) 384
      = some ((d38 * 1000000 / 38400000 : Nat) : Int) ∧
    (∀ m, factory_test_result d32 (d38 : Int) = some m →
      m.1 = ((d32 * 1000000 / 32768 : Nat) : Int) ∧
      m.2.1 = ((d38 * 1000000 / 38400000 : Nat) : Int)) ∧
    (u32_of_int ((d32 * 1000000 / 32768 : Nat) : Int) ≠ 0 →
      ∃ ppm, factory_test_result d32 (d38 : Int)
        = some (((d32 * 1000000 / 32768 : Nat) : Int),
            ((d38 * 1000000 / 38400000 : Nat) : Int), ppm)) := by
  have e32 : d32 * 15625 / 512 = d32 * 1000000 / 32768 := by omega
  have e38 : d38 * 10 / 384 = d38 * 1000000 / 38400000 := by omega
  have hres := factory_test_result_eq d32 d38 hd32 hd38
  have hconv := usec_conversions d32 d38 hd32 hd38
  rw [e32, e38] at hres hconv
  refine ⟨by norm_num at hd32 ⊢; omega, e32, e38, hconv.1, hconv.2, ?_, ?_⟩
  · intro m hm
    rw [hres] at hm
    split at hm
    · split at hm
      · exact Option.noConfusion hm
      · cases hm
        exact ⟨rfl, rfl⟩
    · split at hm
      · exact Option.noConfusion hm
      · cases hm
        exact ⟨rfl, rfl⟩
  · intro hne
    have hmod : u32_of_int ((d32 * 1000000 / 32768 : Nat) : Int) % 2 ^ 32 ≠ 0 := by
      have hlt : u32_of_int ((d32 * 1000000 / 32768 : Nat) : Int) < 2 ^ 32 := by
        unfold u32_of_int
        norm_num
        omega
      rw [Nat.mod_eq_of_lt hlt]
      exact hne
    rw [hres]
    split
    · obtain ⟨q, hq⟩ := do_div_s64_defined
        (s64_wrap (-s64_wrap (s64_wrap (((d38 * 1000000 / 38400000 : Nat) : Int)
          - ((d32 * 1000000 / 32768 : Nat) : Int)) * 1000000)))
        (u32_of_int ((d32 * 1000000 / 32768 : Nat) : Int)) hmod
      rw [hq]
      exact ⟨_, rfl⟩
    · obtain ⟨q, hq⟩ := do_div_s64_defined
        (s64_wrap (s64_wrap (((d38 * 1000000 / 38400000 : Nat) : Int)
          - ((d32 * 1000000 / 32768 : Nat) : Int)) * 1000000))
        (u32_of_int ((d32 * 1000000 / 32768 : Nat) : Int)) hmod
      rw [hq]
      exact ⟨_, rfl⟩

/-- C17 (witness): 32768 reference ticks are 1,000,000 microseconds and
38400384 counter ticks are 1,000,010 microseconds. -/
theorem C17_exact_microseconds_witness :
    ((32768 : Nat) < 2 ^ 32 ∧ 38400384 * 10 < 2 ^ 63) ∧
    32768 * 1000000 / 32768 = 1000000 ∧ 38400384 * 1000000 / 38400000 = 1000010 ∧
    ∃ ppm, factory_test_result 32768 ((38400384 : Nat) : Int)
      = some (((32768 * 1000000 / 32768 : Nat) : Int),
          ((38400384 * 1000000 / 38400000 : Nat) : Int), ppm) :=
  ⟨by decide, by decide, by decide,
    (C17_exact_microseconds 32768 38400384 (by decide) (by decide)).2.2.2.2.2.2 (by decide)⟩

/-- C18 (the code at the failing input): when no reference tick has elapsed
(`d32 = 0`) the elapsed reference time is 0 microseconds, the divisor of the
ppm division is 0, and the result of the read is undefined for every counter
delta; the same happens at `d32 = 1970324837`, whose microsecond count is a
multiple of `2^32`. -/
theorem C18_ppm_division_by_zero (d38 : Int) :
    u32_of_int ((0 * 15625 / 512 : Nat) : Int) = 0 ∧
    factory_test_result 0 d38 = none ∧
    u32_of_int ((1970324837 * 15625 / 512 : Nat) : Int) = 0 ∧
    factory_test_result 1970324837 d38 = none ∧
    vcxo_debugfs_test_read vcxo_debugfs_test_open 4096 false 1000 timer_ptr.null 0
      ⟨⟨0, 0⟩, ⟨1000, 0, 1⟩⟩ = none := by
  have hundef : ∀ d32 : Nat, d32 < 2 ^ 32 →
      u32_of_int ((d32 * 15625 / 512 : Nat) : Int) = 0 → factory_test_result d32 d38 = none := by
    intro d32 hd32 hz
    have h1 : s64_wrap ((d32 : Int) * 15625) = ((d32 * 15625 : Nat) : Int) := by
      rw [s64_wrap_of_range] <;> norm_num at hd32 ⊢ <;> omega
    have e1 : do_div_s64 (s64_wrap ((d32 : Int) * 15625)) 512
        = some ((d32 * 15625 / 512 : Nat) : Int) := by
      rw [h1, do_div_s64_of_nonneg _ 512 (by omega) (by norm_num at hd32 ⊢; omega)
        (by norm_num) (by norm_num)]
      norm_num
    obtain ⟨q, e2⟩ := do_div_s64_defined (s64_wrap (d38 * 10)) 384 (by decide)
    have hz0 : ∀ n : Int,
        do_div_s64 n (u32_of_int ((d32 * 15625 / 512 : Nat) : Int)) = none := by
      intro n
      apply do_div_s64_zero
      rw [hz]
      rfl
    unfold factory_test_result
    simp only [e1, e2, hz0]
    split <;> rfl
  refine ⟨by decide, hundef 0 (by decide) (by decide), by decide,
    hundef 1970324837 (by decide) (by decide), by decide⟩

end Steelhead
